import Mathlib

/-!
# ghmir: mirroring orchestration

A shallow embedding of `main.go` (package `main` of `ghmir`) and the properties of its
validation, reconciliation, batch and run logic.

Go strings are embedded as Lean `String`s, a Go `error` as `GoError` (`none` is `nil`,
`some msg` is an error whose `Error()` text is `msg`), and `fmt.Errorf("...: %w", err)` as the
concatenation of the fixed text with the text of the wrapped error.
-/

set_option autoImplicit false

namespace Ghmir

/-! ## Data model (main.go 15-31) -/

/-- Go `error`: `none` is `nil`, `some msg` an error with text `msg`. -/
abbrev GoError := Option String

deriving instance DecidableEq for Except

/-- The struct `GitLabConfig` (main.go 15-19). -/
structure GitLabConfig where
  TokenName : String
  Token : String
  GroupName : String
  deriving DecidableEq, Repr

/-- The struct `EntityConfig` (main.go 21-25). -/
structure EntityConfig where
  GitHubToken : String
  /-- The field `Type` of the source (`Type` is reserved in Lean). -/
  EntityType : String
  GitLab : GitLabConfig
  deriving DecidableEq, Repr

/-- The struct `Config` (main.go 27-31); the Go map `Entities` is an association list read
with `List.lookup`. -/
structure Config where
  BackupDir : String
  DiscordWebhook : String
  Entities : List (String × EntityConfig)
  deriving DecidableEq, Repr

/-- The zero value of `EntityConfig`, which a Go map yields for an absent key. -/
def EntityConfig.zero : EntityConfig := ⟨"", "", ⟨"", "", ""⟩⟩

/-- The two-valued map read `entityConfig, exists := config.Entities[entity]`. -/
def mapGet (m : List (String × EntityConfig)) (entity : String) : Option EntityConfig :=
  m.lookup entity

/-- The one-valued map read `config.Entities[entity]` (zero value when absent). -/
def mapIndex (m : List (String × EntityConfig)) (entity : String) : EntityConfig :=
  (m.lookup entity).getD EntityConfig.zero

/-! ## Validation (main.go 44-61) -/

/-- The body of the validation loop of `loadConfig` for one requested entity
(main.go 46-60): `none` when every check passes, else the error of the first failed check. -/
def checkEntity (m : List (String × EntityConfig)) (entity : String) : GoError :=
  match mapGet m entity with
  | none => some ("configuration for " ++ entity ++ " not found")
  | some entityConfig =>
    if entityConfig.GitHubToken = "" then
      some ("github_token not set for " ++ entity)
    else if entityConfig.GitLab.Token = "" ∨ entityConfig.GitLab.TokenName = ""
        ∨ entityConfig.GitLab.GroupName = "" then
      some ("incomplete gitlab configuration for " ++ entity)
    else if entityConfig.EntityType ≠ "user" ∧ entityConfig.EntityType ≠ "org" then
      some ("invalid type for " ++ entity ++ ": must be 'user' or 'org'")
    else none

/-- The validation loop of `loadConfig` (main.go 45-61): returns at the first requested
entity whose check fails. -/
def validateEntities (m : List (String × EntityConfig)) : List String → GoError
  | [] => none
  | entity :: rest =>
    match checkEntity m entity with
    | some err => some err
    | none => validateEntities m rest

/-! ## The process and its environment

The operating system, the external programs and the library functions the program calls are
parameters: a `Sys σ` gives, for a state `σ` of the outside world, the outcome of each call.
A `Prog σ α` is a piece of the program: from a state of the world it yields a value, the
state afterwards and the chronological list of the calls it made, each with its outcome. -/

/-- One call made by the process, with its outcome. -/
inductive Event
  /-- The call `exec.Command(name, args...).Run()`. -/
  | exec (name : String) (args : List String) (err : GoError)
  /-- The call `os.Chdir(dir)`. -/
  | chdir (dir : String) (err : GoError)
  /-- The call `os.MkdirAll(path, 0755)`. -/
  | mkdirAll (path : String) (err : GoError)
  /-- The call `log.Printf(format, args...)`. -/
  | log (format : String) (args : List String)
  deriving DecidableEq, Repr

/-- One `os.DirEntry` of a directory listing. -/
structure DirEntry where
  Name : String
  IsDir : Bool
  deriving DecidableEq, Repr

/-- The outside world as seen by the program: outcomes of `exec.Cmd.Run`, `os.Chdir`,
`os.MkdirAll`, `os.Stat` (through `os.IsNotExist`), `os.ReadDir`, `filepath.Abs`,
`os.ReadFile`, `os.ExpandEnv`, and the library functions `filepath.Join`, `filepath.Base`
and `yaml.Unmarshal` (into a `Config`). -/
structure Sys (σ : Type) where
  run : String → List String → σ → GoError × σ
  chdir : String → σ → GoError × σ
  mkdirAll : String → σ → GoError × σ
  statNotExist : String → σ → Bool
  readDir : String → σ → Except String (List DirEntry)
  abs : String → σ → Except String String
  readFile : String → σ → Except String String
  expandEnv : String → σ → String
  join : String → String → String
  base : String → String
  unmarshal : String → Except String Config

/-- The result of running a piece of the program. -/
structure Out (σ α : Type) where
  val : α
  state : σ
  trace : List Event

/-- A piece of the program, run from a state of the world. -/
def Prog (σ α : Type) : Type := σ → Out σ α

/-- Returning a value makes no call. -/
def Prog.pure {σ α : Type} (a : α) : Prog σ α := fun s => ⟨a, s, []⟩

/-- Sequencing: the calls of the first part come before the calls of the second. -/
def Prog.bind {σ α β : Type} (m : Prog σ α) (f : α → Prog σ β) : Prog σ β := fun s =>
  ⟨(f (m s).val (m s).state).val, (f (m s).val (m s).state).state,
    (m s).trace ++ (f (m s).val (m s).state).trace⟩

instance {σ : Type} : Monad (Prog σ) where
  pure := Prog.pure
  bind := Prog.bind

variable {σ : Type}

/-- The call `exec.Command(name, args...).Run()`. -/
def execRun (sys : Sys σ) (name : String) (args : List String) : Prog σ GoError := fun s =>
  ⟨(sys.run name args s).1, (sys.run name args s).2, [Event.exec name args (sys.run name args s).1]⟩

/-- The call `os.Chdir(dir)`. -/
def osChdir (sys : Sys σ) (dir : String) : Prog σ GoError := fun s =>
  ⟨(sys.chdir dir s).1, (sys.chdir dir s).2, [Event.chdir dir (sys.chdir dir s).1]⟩

/-- The call `os.MkdirAll(path, 0755)`. -/
def osMkdirAll (sys : Sys σ) (path : String) : Prog σ GoError := fun s =>
  ⟨(sys.mkdirAll path s).1, (sys.mkdirAll path s).2, [Event.mkdirAll path (sys.mkdirAll path s).1]⟩

/-- The call `log.Printf(format, args...)`. -/
def logPrintf (format : String) (args : List String) : Prog σ Unit := fun s =>
  ⟨(), s, [Event.log format args]⟩

/-- A read of the world that changes nothing (`os.Stat`, `os.ReadDir`, `filepath.Abs`,
`os.ReadFile`, `os.ExpandEnv`). -/
def osRead {α : Type} (f : σ → α) : Prog σ α := fun s => ⟨f s, s, []⟩

/-! ## loadConfig (main.go 33-64) -/

/-- The function `loadConfig`: read the file, parse it, validate the requested entities. -/
def loadConfig (sys : Sys σ) (configFile : String) (requestedEntities : List String) :
    Prog σ (Except String Config) := do
  match ← osRead (sys.readFile configFile) with
  | .error err => pure (.error ("failed to read config file: " ++ err))
  | .ok data =>
    match sys.unmarshal data with
    | .error err => pure (.error ("failed to parse config file: " ++ err))
    | .ok config =>
      match validateEntities config.Entities requestedEntities with
      | some err => pure (.error err)
      | none => pure (.ok config)

/-! ## sendDiscordMessage (main.go 66-79) -/

/-- The request body built at main.go 71 by `fmt.Sprintf` from the format
`{"content":"%s", "username":"GitHub Mirror Bot"}`: the message is inserted as it is. -/
def discordPayload (message : String) : String :=
  "\x7b\"content\":\"" ++ message ++ "\", \"username\":\"GitHub Mirror Bot\"\x7d"

/-- The function `sendDiscordMessage`. -/
def sendDiscordMessage (sys : Sys σ) (message webhookURL : String) : Prog σ GoError :=
  if webhookURL = "" then pure none
  else execRun sys "curl"
    ["-H", "Content-Type: application/json", "-d", discordPayload message, "-X", "POST",
      webhookURL]

/-! ## mirrorToGitlab (main.go 81-123) -/

/-- The URL built at main.go 89-90. -/
def remoteURLOf (gitlabUser gitlabToken gitlabGroup repoName : String) : String :=
  "https://" ++ gitlabUser ++ ":" ++ gitlabToken ++ "@gitlab.com/" ++ gitlabGroup ++ "/"
    ++ repoName ++ ".git"

/-- The slice `configs` of main.go 100-107. -/
def configs : List (List String) :=
  [ ["config", "--local", "--replace", "remote.origin.fetch", "+refs/heads/*:refs/heads/*"],
    ["config", "--local", "--add", "remote.origin.fetch", "+refs/tags/*:refs/tags/*"],
    ["config", "--local", "--add", "remote.origin.fetch", "+refs/change/*:refs/change/*"],
    ["config", "--local", "--replace", "remote.gitlab.push", "+refs/heads/*:refs/heads/*"],
    ["config", "--local", "--add", "remote.gitlab.push", "+refs/tags/*:refs/tags/*"],
    ["config", "--local", "--add", "remote.gitlab.push", "+refs/change/*:refs/change/*"] ]

/-- Lines 92-98 of `mirrorToGitlab`: `git remote add`, and `git remote set-url` when the add
fails. -/
def addOrSetRemote (sys : Sys σ) (remoteURL : String) : Prog σ GoError := do
  match ← execRun sys "git" ["remote", "add", "gitlab", remoteURL] with
  | none => pure none
  | some _ =>
    match ← execRun sys "git" ["remote", "set-url", "gitlab", remoteURL] with
    | some err => pure (some ("failed to set remote: " ++ err))
    | none => pure none

/-- The loop of main.go 109-114 over a list of `git` argument lists. -/
def runConfigs (sys : Sys σ) : List (List String) → Prog σ GoError
  | [] => pure none
  | args :: rest => do
    match ← execRun sys "git" args with
    | some err => pure (some ("failed to configure git: " ++ err))
    | none => runConfigs sys rest

/-- Lines 92-114 of `mirrorToGitlab`: the remote, then the six refspec settings. -/
def reconcile (sys : Sys σ) (remoteURL : String) : Prog σ GoError := do
  match ← addOrSetRemote sys remoteURL with
  | some err => pure (some err)
  | none => runConfigs sys configs

/-- The function `mirrorToGitlab`. -/
def mirrorToGitlab (sys : Sys σ) (repoPath gitlabUser gitlabToken gitlabGroup : String) :
    Prog σ GoError := do
  let repoName := sys.base repoPath
  logPrintf "Mirroring %s to GitLab under the group %s..." [repoName, gitlabGroup]
  match ← osChdir sys repoPath with
  | some err => pure (some ("failed to change to repo directory: " ++ err))
  | none =>
    let remoteURL := remoteURLOf gitlabUser gitlabToken gitlabGroup repoName
    match ← reconcile sys remoteURL with
    | some err => pure (some err)
    | none =>
      match ← execRun sys "git" ["push", "--mirror", "gitlab"] with
      | some err => pure (some ("failed to push to gitlab: " ++ err))
      | none => do
        logPrintf "Successfully mirrored %s to GitLab" [repoName]
        pure none

/-! ## processRepositories (main.go 125-179) -/

/-- The locals `totalRepos`, `failedRepos` and `failedList` of `processRepositories`
(the counters are Go `int`s, far from overflow: they count directory entries). -/
structure Batch where
  totalRepos : Nat
  failedRepos : Nat
  failedList : List String
  deriving DecidableEq, Repr

/-- The loop of main.go 146-165 over the directory listing. -/
def mirrorLoop (sys : Sys σ) (entityConfig : EntityConfig) (absDirectory : String) :
    List DirEntry → Batch → Prog σ Batch
  | [], b => pure b
  | entry :: rest, b =>
    if !entry.IsDir then mirrorLoop sys entityConfig absDirectory rest b
    else do
      let repoPath := sys.join absDirectory entry.Name
      let repoName := entry.Name
      let b1 : Batch := ⟨b.totalRepos + 1, b.failedRepos, b.failedList⟩
      let b2 ← (do
        match ← mirrorToGitlab sys repoPath entityConfig.GitLab.TokenName
            entityConfig.GitLab.Token entityConfig.GitLab.GroupName with
        | some err => do
          logPrintf "Error mirroring %s: %v" [repoName, err]
          pure (⟨b1.totalRepos, b1.failedRepos + 1, b1.failedList ++ [repoName]⟩ : Batch)
        | none => pure b1)
      let _ ← osChdir sys ".."
      mirrorLoop sys entityConfig absDirectory rest b2

/-- The verb `%v` of `fmt` on a `[]string`: the elements separated by blanks, in brackets. -/
def formatStrings (l : List String) : String :=
  "[" ++ " ".intercalate l ++ "]"

/-- The summary composed at main.go 167-171 (`%d` is the decimal numeral). -/
def summaryText (entityName : String) (b : Batch) : String :=
  let summary := "[" ++ entityName ++ "] " ++ toString b.totalRepos
    ++ " repositories mirrored, " ++ toString b.failedRepos ++ " error(s) occurred."
  if b.failedList.length > 0 then
    summary ++ ("\nFailed repos: " ++ formatStrings b.failedList)
  else summary

/-- Lines 173-177: the summary is sent when a webhook is configured; a delivery failure is
logged. -/
def notify (sys : Sys σ) (summary webhookURL : String) : Prog σ Unit :=
  if webhookURL ≠ "" then do
    match ← sendDiscordMessage sys summary webhookURL with
    | some err => logPrintf "Failed to send Discord message: %v" [err]
    | none => pure ()
  else pure ()

/-- The function `processRepositories`. -/
def processRepositories (sys : Sys σ) (entityName : String) (entityConfig : EntityConfig)
    (backupDir webhookURL : String) : Prog σ GoError := do
  let directory := sys.join backupDir (entityName ++ "_backup")
  match ← osRead (sys.abs directory) with
  | .error err => pure (some ("failed to get absolute path: " ++ err))
  | .ok absDirectory =>
    logPrintf "Processing %s repositories in %s..." [entityName, directory]
    if ← osRead (sys.statNotExist directory) then
      pure (some ("directory " ++ directory ++ " not found"))
    else
      match ← osRead (sys.readDir directory) with
      | .error err => pure (some ("failed to read directory: " ++ err))
      | .ok entries =>
        let b ← mirrorLoop sys entityConfig absDirectory entries ⟨0, 0, []⟩
        notify sys (summaryText entityName b) webhookURL
        pure none

/-! ## The root command (main.go 189-254) -/

/-- The predicate `unicode.IsSpace`, which `strings.TrimSpace` uses. -/
def isSpace (c : Char) : Bool :=
  c = '\t' || c = '\n' || c = Char.ofNat 0x0B || c = Char.ofNat 0x0C || c = '\r' || c = ' '
    || c = Char.ofNat 0x85 || c = Char.ofNat 0xA0 || c = Char.ofNat 0x1680
    || (0x2000 ≤ c.toNat && c.toNat ≤ 0x200A) || c = Char.ofNat 0x2028
    || c = Char.ofNat 0x2029 || c = Char.ofNat 0x202F || c = Char.ofNat 0x205F
    || c = Char.ofNat 0x3000

/-- The function `strings.TrimSpace`. -/
def trimSpace (s : String) : String :=
  String.mk ((s.data.dropWhile isSpace).reverse.dropWhile isSpace).reverse

/-- The function `strings.Split(s, ",")` on the characters of `s`. -/
def splitComma : List Char → List (List Char)
  | [] => [[]]
  | c :: cs =>
    if c = ',' then [] :: splitComma cs
    else
      match splitComma cs with
      | [] => [[c]]
      | x :: xs => (c :: x) :: xs

/-- The loop of main.go 202-207: trim each name in turn, fail at the first empty one. -/
def trimEntities : List String → Except String (List String)
  | [] => .ok []
  | entity :: rest =>
    if trimSpace entity = "" then .error "empty entity name in entities list"
    else
      match trimEntities rest with
      | .error err => .error err
      | .ok l => .ok (trimSpace entity :: l)

/-- Lines 201-207 of `RunE`: split the flag at commas, trim, reject an empty name. -/
def entityListOf (entities : String) : Except String (List String) :=
  trimEntities ((splitComma entities.data).map String.mk)

/-- The arguments of the `ghorg` call of main.go 224-229. -/
def cloneArgs (entity : String) (entityConfig : EntityConfig) (expandedBackupDir : String) :
    List String :=
  ["clone", entity, "--clone-type=" ++ entityConfig.EntityType,
    "--token=" ++ entityConfig.GitHubToken, "--backup", "--include-submodules",
    "--path=" ++ expandedBackupDir]

/-- The loop of main.go 220-250 over the requested entities. -/
def runEntities (sys : Sys σ) (config : Config) (doPush : Bool) (expandedBackupDir : String) :
    List String → Prog σ Unit
  | [] => pure ()
  | entity :: rest => do
    let entityConfig := mapIndex config.Entities entity
    match ← execRun sys "ghorg" (cloneArgs entity entityConfig expandedBackupDir) with
    | some err => do
      logPrintf "Warning: Failed to clone %s repositories: %v" [entity, err]
      runEntities sys config doPush expandedBackupDir rest
    | none => do
      if doPush then
        match ← processRepositories sys entity entityConfig expandedBackupDir
            config.DiscordWebhook with
        | some err => logPrintf "Error processing %s repositories: %v" [entity, err]
        | none => pure ()
      else pure ()
      runEntities sys config doPush expandedBackupDir rest

/-- The package variables bound to the flags (main.go 181-187). -/
structure Flags where
  configFile : String
  backupDir : String
  entities : String
  doPush : Bool
  deriving DecidableEq, Repr

/-- The function `RunE` of `rootCmd`. -/
def RunE (sys : Sys σ) (flags : Flags) : Prog σ GoError :=
  if flags.backupDir = "" then pure (some "--path flag is required")
  else if flags.entities = "" then pure (some "--entities flag is required")
  else
    match entityListOf flags.entities with
    | .error err => pure (some err)
    | .ok entityList => do
      let expandedBackupDir ← osRead (sys.expandEnv flags.backupDir)
      match ← osMkdirAll sys expandedBackupDir with
      | some err => pure (some ("failed to create backup directory: " ++ err))
      | none =>
        let expandedConfigFile ← osRead (sys.expandEnv flags.configFile)
        match ← loadConfig sys expandedConfigFile entityList with
        | .error err => pure (some ("failed to load config: " ++ err))
        | .ok config => do
          runEntities sys config flags.doPush expandedBackupDir entityList
          pure none

/-! ## Words of the specification -/

/-- An entity configuration is complete: the source credential and the three destination
fields are non-empty and the type is `user` or `org`. -/
def EntityConfig.Complete (c : EntityConfig) : Prop :=
  c.GitHubToken ≠ "" ∧ c.GitLab.Token ≠ "" ∧ c.GitLab.TokenName ≠ "" ∧ c.GitLab.GroupName ≠ ""
    ∧ (c.EntityType = "user" ∨ c.EntityType = "org")

instance (c : EntityConfig) : Decidable c.Complete := by
  unfold EntityConfig.Complete; infer_instance

/-! ## Sample inputs -/

/-- A sample entry: a complete configuration of a user. -/
def sampleEntity : EntityConfig := ⟨"ghp", "user", ⟨"bot", "glpat", "mirrors"⟩⟩

/-! ## Reading a trace -/

/-- The repository announced by a "Mirroring" log line, the first action of every call of
`mirrorToGitlab` (main.go 83). -/
def mirrorStarted : Event → Option String
  | .log format (repoName :: _) =>
    if format = "Mirroring %s to GitLab under the group %s..." then some repoName else none
  | _ => none

/-- The repository named by an "Error mirroring" log line, written by `processRepositories`
when `mirrorToGitlab` returned an error (main.go 161). -/
def mirrorFailed : Event → Option String
  | .log format (repoName :: _) =>
    if format = "Error mirroring %s: %v" then some repoName else none
  | _ => none

/-- The directory of an `os.Chdir` call. -/
def chdirTarget : Event → Option String
  | .chdir dir _ => some dir
  | _ => none

/-- The program run by an `exec.Command(...).Run()` call. -/
def execName : Event → Option String
  | .exec name _ _ => some name
  | _ => none

/-- The entity of a call of the cloning tool (main.go 224). -/
def cloned : Event → Option String
  | .exec name (_ :: entity :: _) _ => if name = "ghorg" then some entity else none
  | _ => none

/-- The log line of the entity loop about a failed batch. -/
def batchErrorLog (entity : String) : GoError → List Event
  | some err => [Event.log "Error processing %s repositories: %v" [entity, err]]
  | none => []

/-! ## A simulated world

A concrete `Sys` on which the program is evaluated at concrete inputs: a file tree with a
working directory, and external commands whose outcomes are read from a list. Paths are
resolved lexically, component by component. -/

/-- Split a path at every slash. -/
def splitSlash : List Char → List (List Char)
  | [] => [[]]
  | c :: cs =>
    if c = '/' then [] :: splitSlash cs
    else
      match splitSlash cs with
      | [] => [[c]]
      | x :: xs => (c :: x) :: xs

/-- The components of a path, empty ones included. -/
def pathComponents (path : String) : List String :=
  (splitSlash path.data).map String.mk

/-- A path is rooted when it starts with a slash. -/
def isRooted (path : String) : Bool :=
  path.data.head? = some '/'

/-- The state of the simulated world. -/
structure Sim where
  /-- The components of the working directory, an absolute path. -/
  cwd : List String
  /-- The file tree: the components of each path, with `none` for a directory and the
  content for a regular file. The root exists always. -/
  nodes : List (List String × Option String)
  /-- The outcomes of the coming external commands, in order; success when exhausted. -/
  outcomes : List GoError
  deriving DecidableEq, Repr

/-- Resolve a path against the working directory. -/
def Sim.resolve (cwd : List String) (path : String) : List String :=
  (pathComponents path).foldl
    (fun acc c => if c = "" ∨ c = "." then acc else if c = ".." then acc.dropLast else acc ++ [c])
    (if isRooted path then [] else cwd)

/-- An absolute path written out. -/
def Sim.render (comps : List String) : String :=
  "/" ++ "/".intercalate comps

/-- The resolved path is an existing directory. -/
def Sim.isDir (s : Sim) (target : List String) : Bool :=
  target = [] || s.nodes.contains (target, none)

/-- The simulated `exec.Cmd.Run`: the next outcome of the list. -/
def Sim.run (_name : String) (_args : List String) (s : Sim) : GoError × Sim :=
  match s.outcomes with
  | [] => (none, s)
  | o :: rest => (o, { s with outcomes := rest })

/-- The simulated `os.Chdir`. -/
def Sim.chdir (dir : String) (s : Sim) : GoError × Sim :=
  if s.isDir (Sim.resolve s.cwd dir) then (none, { s with cwd := Sim.resolve s.cwd dir })
  else (some ("chdir " ++ dir ++ ": no such file or directory"), s)

/-- The simulated `os.MkdirAll`: the directory is added when the path is free. -/
def Sim.mkdirAll (path : String) (s : Sim) : GoError × Sim :=
  match s.nodes.lookup (Sim.resolve s.cwd path) with
  | some (some _) => (some ("mkdir " ++ path ++ ": not a directory"), s)
  | some none => (none, s)
  | none =>
    if Sim.resolve s.cwd path = [] then (none, s)
    else (none, { s with nodes := s.nodes ++ [(Sim.resolve s.cwd path, none)] })

/-- The simulated `os.IsNotExist(err)` of `os.Stat`. -/
def Sim.statNotExist (path : String) (s : Sim) : Bool :=
  !(Sim.resolve s.cwd path = [] || (s.nodes.lookup (Sim.resolve s.cwd path)).isSome)

/-- The simulated `os.ReadDir`: the children of the directory, in the order of the tree. -/
def Sim.readDir (path : String) (s : Sim) : Except String (List DirEntry) :=
  if s.isDir (Sim.resolve s.cwd path) then
    .ok (s.nodes.filterMap (fun n =>
      match n.1.getLast? with
      | some name =>
        if n.1.dropLast = Sim.resolve s.cwd path then some ⟨name, n.2.isNone⟩ else none
      | none => none))
  else .error ("open " ++ path ++ ": no such file or directory")

/-- The simulated `filepath.Abs`. -/
def Sim.abs (path : String) (s : Sim) : Except String String :=
  .ok (Sim.render (Sim.resolve s.cwd path))

/-- The simulated `os.ReadFile`. -/
def Sim.readFile (path : String) (s : Sim) : Except String String :=
  match s.nodes.lookup (Sim.resolve s.cwd path) with
  | some (some content) => .ok content
  | _ => .error ("open " ++ path ++ ": no such file or directory")

/-- The lexical `filepath.Clean`. -/
def Sim.clean (path : String) : String :=
  let stack := (pathComponents path).foldl
    (fun acc c =>
      if c = "" ∨ c = "." then acc
      else if c = ".." then
        (if acc = [] ∨ acc.getLast? = some ".." then (if isRooted path then acc else acc ++ [c])
         else acc.dropLast)
      else acc ++ [c])
    ([] : List String)
  if isRooted path then "/" ++ "/".intercalate stack
  else if stack = [] then "."
  else "/".intercalate stack

/-- The function `filepath.Join` on two elements. -/
def Sim.join (a b : String) : String :=
  if a = "" then (if b = "" then "" else Sim.clean b)
  else if b = "" then Sim.clean a
  else Sim.clean (a ++ "/" ++ b)

/-- The function `filepath.Base`. -/
def Sim.base (path : String) : String :=
  if path = "" then "."
  else
    match ((pathComponents path).filter (fun c => c ≠ "")).getLast? with
    | some c => c
    | none => "/"

/-- The simulated world as a `Sys`: `docs` lists the configuration documents that parse, with
the `Config` each one yields; no environment variable is set. -/
def simSys (docs : List (String × Config)) : Sys Sim where
  run := Sim.run
  chdir := Sim.chdir
  mkdirAll := Sim.mkdirAll
  statNotExist := Sim.statNotExist
  readDir := Sim.readDir
  abs := Sim.abs
  readFile := Sim.readFile
  expandEnv := fun path _ => path
  join := Sim.join
  base := Sim.base
  unmarshal := fun data =>
    match docs.lookup data with
    | some config => .ok config
    | none => .error "yaml: cannot unmarshal"

/-- A sample configuration: `alice` is complete, `bob` has no settings. -/
def sampleConfig : Config :=
  ⟨"", "https://discord.example/hook", [("alice", sampleEntity), ("bob", EntityConfig.zero)]⟩

/-- A sample configuration in which `alice` and `carol` are complete. -/
def sampleConfigTwo : Config :=
  ⟨"", "https://discord.example/hook",
    [("alice", sampleEntity), ("carol", ⟨"ghc", "org", ⟨"bot", "glpat", "carol-mirrors"⟩⟩)]⟩

/-- A sample world: the process runs in `/work`; the backup root `/work/backup` holds the
clones `api` and `web` of `alice` and a stray file; the configuration is `/work/cfg.yaml`. -/
def sampleWorld (outcomes : List GoError) : Sim :=
  { cwd := ["work"],
    nodes := [(["work"], none), (["work", "cfg.yaml"], some "doc"),
      (["work", "backup"], none), (["work", "backup", "alice_backup"], none),
      (["work", "backup", "alice_backup", "api"], none),
      (["work", "backup", "alice_backup", "notes.txt"], some ""),
      (["work", "backup", "alice_backup", "web"], none)],
    outcomes := outcomes }

/-! ## The version-control client's view of one repository -/

/-- Modelled from the spec: the configuration of one local repository as the external
version-control client keeps it (the client is not part of this repository): the remotes with
their URLs and the multi-valued settings in file order. -/
structure GitRepo where
  remotes : List (String × String)
  settings : List (String × String)
  deriving DecidableEq, Repr

/-- The values of a multi-valued setting, in order. -/
def GitRepo.values (g : GitRepo) (key : String) : List String :=
  (g.settings.filter (fun kv => kv.1 = key)).map (fun kv => kv.2)

/-- Modelled from the spec: the replacement of a setting of the external version-control
client ("replaced (not appended)", section 4.2): every value of `key` gives way to the single
value `value`; the first occurrence is rewritten, the others are dropped; when there is none
the value is appended. -/
def replaceAll (key value : String) : List (String × String) → List (String × String)
  | [] => [(key, value)]
  | kv :: rest =>
    if kv.1 = key then (key, value) :: rest.filter (fun kv => kv.1 ≠ key)
    else kv :: replaceAll key value rest

/-- Modelled from the spec: what the external version-control client does with the commands
the Remote Reconciler issues (section 4.2): `remote add` creates the remote and fails when a
remote of that name exists; `remote set-url` updates its URL and fails when there is none;
`config --local --replace` replaces the values of the setting by the one given (the option is
the client's `--replace-all`, abbreviated); `config --local --add` appends a value. Other
commands leave the configuration as it is. -/
def gitRun (name : String) (args : List String) (g : GitRepo) : GoError × GitRepo :=
  if name ≠ "git" then (none, g)
  else
    match args with
    | [a, b, remote, url] =>
      if a = "remote" ∧ b = "add" then
        if (g.remotes.lookup remote).isSome then (some "exit status 3", g)
        else (none, { g with remotes := g.remotes ++ [(remote, url)] })
      else if a = "remote" ∧ b = "set-url" then
        if (g.remotes.lookup remote).isSome then
          (none, { g with
            remotes := g.remotes.map (fun r => if r.1 = remote then (remote, url) else r) })
        else (some "exit status 2", g)
      else (none, g)
    | [a, b, c, key, value] =>
      if a = "config" ∧ b = "--local" ∧ c = "--replace" then
        (none, { g with settings := replaceAll key value g.settings })
      else if a = "config" ∧ b = "--local" ∧ c = "--add" then
        (none, { g with settings := g.settings ++ [(key, value)] })
      else (none, g)
    | _ => (none, g)

/-- The version-control client on one repository as a `Sys`; the calls other than
`exec.Cmd.Run` play no part in the reconciliation. -/
def gitSys : Sys GitRepo where
  run := gitRun
  chdir := fun _ g => (none, g)
  mkdirAll := fun _ g => (none, g)
  statNotExist := fun _ _ => false
  readDir := fun _ _ => .ok []
  abs := fun path _ => .ok path
  readFile := fun _ _ => .error "no file"
  expandEnv := fun path _ => path
  join := Sim.join
  base := Sim.base
  unmarshal := fun _ => .error "no document"

/-- The refspec settings after the six `config` commands, from any settings. -/
def settingsAfter (l : List (String × String)) : List (String × String) :=
  replaceAll "remote.gitlab.push" "+refs/heads/*:refs/heads/*"
      (replaceAll "remote.origin.fetch" "+refs/heads/*:refs/heads/*" l
        ++ [("remote.origin.fetch", "+refs/tags/*:refs/tags/*")]
        ++ [("remote.origin.fetch", "+refs/change/*:refs/change/*")])
    ++ [("remote.gitlab.push", "+refs/tags/*:refs/tags/*")]
    ++ [("remote.gitlab.push", "+refs/change/*:refs/change/*")]

/-- The remotes after `remote add gitlab url`, with `remote set-url` when the add fails. -/
def remotesAfter (url : String) (r : List (String × String)) : List (String × String) :=
  if (r.lookup "gitlab").isSome then
    r.map (fun x => if x.1 = "gitlab" then ("gitlab", url) else x)
  else r ++ [("gitlab", url)]

/-! ## Reading a JSON text -/

/-- JSON insignificant whitespace (RFC 8259, section 2). -/
def jsonSkipWs (l : List Char) : List Char :=
  l.dropWhile (fun c => c = ' ' || c = '\t' || c = '\n' || c = '\r')

/-- The value of a hexadecimal digit. -/
def hexVal (c : Char) : Option Nat :=
  if '0' ≤ c ∧ c ≤ '9' then some (c.toNat - '0'.toNat)
  else if 'a' ≤ c ∧ c ≤ 'f' then some (c.toNat - 'a'.toNat + 10)
  else if 'A' ≤ c ∧ c ≤ 'F' then some (c.toNat - 'A'.toNat + 10)
  else none

/-- The character of a two-character escape (RFC 8259, section 7). -/
def jsonEscape (c : Char) : Option Char :=
  if c = '"' then some '"'
  else if c = '\\' then some '\\'
  else if c = '/' then some '/'
  else if c = 'b' then some (Char.ofNat 8)
  else if c = 'f' then some (Char.ofNat 12)
  else if c = 'n' then some '\n'
  else if c = 'r' then some '\r'
  else if c = 't' then some '\t'
  else none

/-- Read a JSON string after its opening quotation mark (RFC 8259, section 7): the string
read and the rest of the input. A quotation mark ends the string, a reverse solidus starts an
escape, and a control character (below U+0020) is not allowed unescaped. The fuel bounds the
number of characters read. -/
def jsonStringBody : Nat → List Char → List Char → Option (String × List Char)
  | 0, _, _ => none
  | _, _, [] => none
  | n + 1, acc, c :: rest =>
    if c = '"' then some (String.mk acc.reverse, rest)
    else if c = '\\' then
      match rest with
      | [] => none
      | e :: rest1 =>
        if e = 'u' then
          match rest1 with
          | h1 :: h2 :: h3 :: h4 :: rest2 =>
            match hexVal h1, hexVal h2, hexVal h3, hexVal h4 with
            | some d1, some d2, some d3, some d4 =>
              jsonStringBody n (Char.ofNat (((d1 * 16 + d2) * 16 + d3) * 16 + d4) :: acc) rest2
            | _, _, _, _ => none
          | _ => none
        else
          match jsonEscape e with
          | some c1 => jsonStringBody n (c1 :: acc) rest1
          | none => none
    else if c.toNat < 0x20 then none
    else jsonStringBody n (c :: acc) rest

/-- Read the members of a JSON object whose values are strings, after the opening brace and
whitespace, up to the closing brace and the end of the text. -/
def jsonMembers : Nat → List Char → Option (List (String × String))
  | 0, _ => none
  | n + 1, input =>
    match input with
    | [] => none
    | q :: rest =>
      if q ≠ '"' then none
      else
        match jsonStringBody rest.length [] rest with
        | none => none
        | some (key, r1) =>
          match jsonSkipWs r1 with
          | [] => none
          | colon :: r2 =>
            if colon ≠ ':' then none
            else
              match jsonSkipWs r2 with
              | [] => none
              | q2 :: r3 =>
                if q2 ≠ '"' then none
                else
                  match jsonStringBody r3.length [] r3 with
                  | none => none
                  | some (value, r4) =>
                    match jsonSkipWs r4 with
                    | [] => none
                    | sep :: r5 =>
                      if sep = ',' then
                        match jsonMembers n (jsonSkipWs r5) with
                        | some members => some ((key, value) :: members)
                        | none => none
                      else if sep = '}' then
                        (if jsonSkipWs r5 = [] then some [(key, value)] else none)
                      else none

/-- Decode a JSON text that is an object whose members are strings: the members in order, or
`none` when the text is not such an object. -/
def jsonDecodeStrings (text : String) : Option (List (String × String)) :=
  match jsonSkipWs text.data with
  | [] => none
  | open1 :: rest =>
    if open1 ≠ '\x7b' then none
    else
      match jsonSkipWs rest with
      | [] => none
      | c :: tail =>
        if c = '\x7d' then (if jsonSkipWs tail = [] then some [] else none)
        else jsonMembers text.length (c :: tail)

/-- A sample world with the clones of two entities under the relative backup root `backup`
of the working directory `/work`. -/
def sampleWorldTwo (outcomes : List GoError) : Sim :=
  { cwd := ["work"],
    nodes := [(["work"], none), (["work", "cfg.yaml"], some "doc"),
      (["work", "backup"], none), (["work", "backup", "alice_backup"], none),
      (["work", "backup", "alice_backup", "api"], none),
      (["work", "backup", "carol_backup"], none),
      (["work", "backup", "carol_backup", "site"], none)],
    outcomes := outcomes }

/-! # Properties -/

/-! ## Validation -/

theorem checkEntity_eq_none_iff (m : List (String × EntityConfig)) (entity : String) :
    checkEntity m entity = none ↔ ∃ c, mapGet m entity = some c ∧ c.Complete := by
  unfold checkEntity EntityConfig.Complete
  cases h : mapGet m entity with
  | none => simp
  | some c =>
    simp only [Option.some.injEq, exists_eq_left']
    by_cases h1 : c.GitHubToken = ""
    · simp [h1]
    by_cases h2 : c.GitLab.Token = ""
    · simp [h1, h2]
    by_cases h3 : c.GitLab.TokenName = ""
    · simp [h1, h2, h3]
    by_cases h4 : c.GitLab.GroupName = ""
    · simp [h1, h2, h3, h4]
    by_cases h5 : c.EntityType = "user"
    · simp [h1, h2, h3, h4, h5]
    by_cases h6 : c.EntityType = "org"
    · simp [h1, h2, h3, h4, h6]
    simp [h1, h2, h3, h4, h5, h6]

theorem checkEntity_congr (m m' : List (String × EntityConfig)) (entity : String)
    (h : mapGet m' entity = mapGet m entity) : checkEntity m' entity = checkEntity m entity := by
  unfold checkEntity; rw [h]

theorem validateEntities_eq_none_iff (m : List (String × EntityConfig))
    (requested : List String) :
    validateEntities m requested = none
      ↔ ∀ e ∈ requested, ∃ c, mapGet m e = some c ∧ c.Complete := by
  induction requested with
  | nil => simp [validateEntities]
  | cons e rest ih =>
    simp only [validateEntities, List.mem_cons, forall_eq_or_imp]
    rw [← checkEntity_eq_none_iff, ← ih]
    cases h : checkEntity m e <;> simp

/-- C1: the validation of `loadConfig` succeeds exactly when every requested name has an
entry that is complete (non-empty `github_token`, gitlab `token`, `token_name` and
`group_name`, type `user` or `org`); two mappings that agree on the requested names give the
same result; and `loadConfig`, on a file that reads and parses, returns the configuration or
the validation error accordingly. -/
theorem loadConfig_validates_requested (m m' : List (String × EntityConfig))
    (requested : List String)
    (hagree : ∀ e ∈ requested, mapGet m' e = mapGet m e) :
    (validateEntities m requested = none
        ↔ ∀ e ∈ requested, ∃ c, mapGet m e = some c ∧ c.Complete)
      ∧ validateEntities m' requested = validateEntities m requested
      ∧ ∀ (sys : Sys σ) (configFile data : String) (config : Config) (s : σ),
          sys.readFile configFile s = .ok data → sys.unmarshal data = .ok config →
          config.Entities = m →
          (loadConfig sys configFile requested s).val
            = (match validateEntities m requested with
               | none => .ok config
               | some err => .error err) := by
  refine ⟨?_, ?_, ?_⟩
  · exact validateEntities_eq_none_iff m requested
  · induction requested with
    | nil => rfl
    | cons e rest ih =>
      simp only [validateEntities]
      rw [checkEntity_congr m m' e (hagree e (List.mem_cons_self _ _)),
        ih (fun x hx => hagree x (List.mem_cons_of_mem _ hx))]
  · intro sys configFile data config s hread hparse hm
    subst hm
    simp only [loadConfig, bind, Prog.bind, osRead, hread, hparse]
    cases validateEntities config.Entities requested <;> rfl

/-- C1 at a concrete input: the unrequested, incomplete entry `bob` does not matter. -/
theorem loadConfig_validates_requested_witness :
    (∀ e ∈ ["alice"], mapGet [("alice", sampleEntity), ("bob", EntityConfig.zero)] e
        = mapGet [("alice", sampleEntity)] e)
      ∧ validateEntities [("alice", sampleEntity), ("bob", EntityConfig.zero)] ["alice"]
        = validateEntities [("alice", sampleEntity)] ["alice"] :=
  ⟨by decide,
    (loadConfig_validates_requested (σ := Unit) [("alice", sampleEntity)]
      [("alice", sampleEntity), ("bob", EntityConfig.zero)] ["alice"] (by decide)).2.1⟩

theorem checkEntity_eq_some (m : List (String × EntityConfig)) (e err : String)
    (h : checkEntity m e = some err) :
    (mapGet m e = none ∧ err = "configuration for " ++ e ++ " not found")
      ∨ (∃ c, mapGet m e = some c ∧ c.GitHubToken = ""
          ∧ err = "github_token not set for " ++ e)
      ∨ (∃ c, mapGet m e = some c ∧ c.GitHubToken ≠ ""
          ∧ (c.GitLab.Token = "" ∨ c.GitLab.TokenName = "" ∨ c.GitLab.GroupName = "")
          ∧ err = "incomplete gitlab configuration for " ++ e)
      ∨ (∃ c, mapGet m e = some c ∧ c.GitHubToken ≠ ""
          ∧ c.GitLab.Token ≠ "" ∧ c.GitLab.TokenName ≠ "" ∧ c.GitLab.GroupName ≠ ""
          ∧ c.EntityType ≠ "user" ∧ c.EntityType ≠ "org"
          ∧ err = "invalid type for " ++ e ++ ": must be 'user' or 'org'") := by
  unfold checkEntity at h
  cases hm : mapGet m e with
  | none =>
    rw [hm] at h
    simp only [Option.some.injEq] at h
    exact Or.inl ⟨rfl, h.symm⟩
  | some c =>
    rw [hm] at h
    simp only at h
    right
    by_cases h1 : c.GitHubToken = ""
    · rw [if_pos h1] at h
      simp only [Option.some.injEq] at h
      exact Or.inl ⟨c, rfl, h1, h.symm⟩
    rw [if_neg h1] at h
    right
    by_cases h2 : c.GitLab.Token = "" ∨ c.GitLab.TokenName = "" ∨ c.GitLab.GroupName = ""
    · rw [if_pos h2] at h
      simp only [Option.some.injEq] at h
      exact Or.inl ⟨c, rfl, h1, h2, h.symm⟩
    rw [if_neg h2] at h
    right
    by_cases h3 : c.EntityType ≠ "user" ∧ c.EntityType ≠ "org"
    · rw [if_pos h3] at h
      simp only [Option.some.injEq] at h
      simp only [not_or] at h2
      exact ⟨c, rfl, h1, h2.1, h2.2.1, h2.2.2, h3.1, h3.2, h.symm⟩
    · rw [if_neg h3] at h
      exact absurd h (by simp)

/-- C2: when the validation of `loadConfig` fails, the requested list splits at the first
invalid entity: every entity before it has a complete entry, and the error names that entity
and the first failed check in the order entry not found, `github_token` not set, incomplete
gitlab configuration, invalid type; the entities after it play no part. -/
theorem loadConfig_fails_on_first_invalid (m : List (String × EntityConfig))
    (requested : List String) (err : String)
    (hfail : validateEntities m requested = some err) :
    ∃ pre e post, requested = pre ++ e :: post
      ∧ (∀ x ∈ pre, ∃ c, mapGet m x = some c ∧ c.Complete)
      ∧ (∀ post', validateEntities m (pre ++ e :: post') = some err)
      ∧ ((mapGet m e = none ∧ err = "configuration for " ++ e ++ " not found")
        ∨ (∃ c, mapGet m e = some c ∧ c.GitHubToken = ""
            ∧ err = "github_token not set for " ++ e)
        ∨ (∃ c, mapGet m e = some c ∧ c.GitHubToken ≠ ""
            ∧ (c.GitLab.Token = "" ∨ c.GitLab.TokenName = "" ∨ c.GitLab.GroupName = "")
            ∧ err = "incomplete gitlab configuration for " ++ e)
        ∨ (∃ c, mapGet m e = some c ∧ c.GitHubToken ≠ ""
            ∧ c.GitLab.Token ≠ "" ∧ c.GitLab.TokenName ≠ "" ∧ c.GitLab.GroupName ≠ ""
            ∧ c.EntityType ≠ "user" ∧ c.EntityType ≠ "org"
            ∧ err = "invalid type for " ++ e ++ ": must be 'user' or 'org'")) := by
  induction requested with
  | nil => simp [validateEntities] at hfail
  | cons a rest ih =>
    simp only [validateEntities] at hfail
    cases hc : checkEntity m a with
    | some e0 =>
      rw [hc] at hfail
      simp only [Option.some.injEq] at hfail
      subst hfail
      refine ⟨[], a, rest, rfl, by simp, ?_, checkEntity_eq_some m a e0 hc⟩
      intro post'
      simp [validateEntities, hc]
    | none =>
      rw [hc] at hfail
      obtain ⟨pre, e, post, hsplit, hpre, hany, hclass⟩ := ih hfail
      refine ⟨a :: pre, e, post, by rw [hsplit]; rfl, ?_, ?_, hclass⟩
      · intro x hx
        rcases List.mem_cons.mp hx with rfl | hx
        · exact (checkEntity_eq_none_iff m x).mp hc
        · exact hpre x hx
      · intro post'
        simp only [List.cons_append, validateEntities, hc]
        exact hany post'

/-- C2 at a concrete input: `bob` has no token and no gitlab settings and is reported for the
token; `carol`, absent, comes later and is not reported. -/
theorem loadConfig_fails_on_first_invalid_witness :
    validateEntities [("alice", sampleEntity), ("bob", EntityConfig.zero)]
        ["alice", "bob", "carol"] = some "github_token not set for bob"
      ∧ ∃ pre e post, ["alice", "bob", "carol"] = pre ++ e :: post
        ∧ (∀ x ∈ pre, ∃ c,
            mapGet [("alice", sampleEntity), ("bob", EntityConfig.zero)] x = some c ∧ c.Complete)
        ∧ (∀ post', validateEntities [("alice", sampleEntity), ("bob", EntityConfig.zero)]
            (pre ++ e :: post') = some "github_token not set for bob")
        ∧ ((mapGet [("alice", sampleEntity), ("bob", EntityConfig.zero)] e = none
            ∧ "github_token not set for bob" = "configuration for " ++ e ++ " not found")
          ∨ (∃ c, mapGet [("alice", sampleEntity), ("bob", EntityConfig.zero)] e = some c
              ∧ c.GitHubToken = "" ∧ "github_token not set for bob"
                = "github_token not set for " ++ e)
          ∨ (∃ c, mapGet [("alice", sampleEntity), ("bob", EntityConfig.zero)] e = some c
              ∧ c.GitHubToken ≠ ""
              ∧ (c.GitLab.Token = "" ∨ c.GitLab.TokenName = "" ∨ c.GitLab.GroupName = "")
              ∧ "github_token not set for bob" = "incomplete gitlab configuration for " ++ e)
          ∨ (∃ c, mapGet [("alice", sampleEntity), ("bob", EntityConfig.zero)] e = some c
              ∧ c.GitHubToken ≠ ""
              ∧ c.GitLab.Token ≠ "" ∧ c.GitLab.TokenName ≠ "" ∧ c.GitLab.GroupName ≠ ""
              ∧ c.EntityType ≠ "user" ∧ c.EntityType ≠ "org"
              ∧ "github_token not set for bob"
                = "invalid type for " ++ e ++ ": must be 'user' or 'org'")) :=
  ⟨by decide,
    loadConfig_fails_on_first_invalid [("alice", sampleEntity), ("bob", EntityConfig.zero)]
      ["alice", "bob", "carol"] "github_token not set for bob" (by decide)⟩

/-! ## Sequencing -/

@[simp] theorem Prog.pure_val {α : Type} (a : α) (s : σ) :
    (Pure.pure a : Prog σ α) s = ⟨a, s, []⟩ := rfl

@[simp] theorem Prog.bind_val {α β : Type} (m : Prog σ α) (f : α → Prog σ β) (s : σ) :
    ((m >>= f) s).val = (f (m s).val (m s).state).val := rfl

@[simp] theorem Prog.bind_state {α β : Type} (m : Prog σ α) (f : α → Prog σ β) (s : σ) :
    ((m >>= f) s).state = (f (m s).val (m s).state).state := rfl

@[simp] theorem Prog.bind_trace {α β : Type} (m : Prog σ α) (f : α → Prog σ β) (s : σ) :
    ((m >>= f) s).trace = (m s).trace ++ (f (m s).val (m s).state).trace := rfl

@[simp] theorem execRun_val (sys : Sys σ) (name : String) (args : List String) (s : σ) :
    (execRun sys name args s).val = (sys.run name args s).1 := rfl

@[simp] theorem execRun_state (sys : Sys σ) (name : String) (args : List String) (s : σ) :
    (execRun sys name args s).state = (sys.run name args s).2 := rfl

@[simp] theorem execRun_trace (sys : Sys σ) (name : String) (args : List String) (s : σ) :
    (execRun sys name args s).trace = [Event.exec name args (sys.run name args s).1] := rfl

@[simp] theorem osChdir_val (sys : Sys σ) (dir : String) (s : σ) :
    (osChdir sys dir s).val = (sys.chdir dir s).1 := rfl

@[simp] theorem osChdir_state (sys : Sys σ) (dir : String) (s : σ) :
    (osChdir sys dir s).state = (sys.chdir dir s).2 := rfl

@[simp] theorem osChdir_trace (sys : Sys σ) (dir : String) (s : σ) :
    (osChdir sys dir s).trace = [Event.chdir dir (sys.chdir dir s).1] := rfl

@[simp] theorem logPrintf_state (format : String) (args : List String) (s : σ) :
    (logPrintf format args s).state = s := rfl

@[simp] theorem logPrintf_trace (format : String) (args : List String) (s : σ) :
    (logPrintf format args s).trace = [Event.log format args] := rfl

@[simp] theorem osRead_val {α : Type} (f : σ → α) (s : σ) : (osRead f s).val = f s := rfl

@[simp] theorem osRead_state {α : Type} (f : σ → α) (s : σ) : (osRead f s).state = s := rfl

@[simp] theorem osRead_trace {α : Type} (f : σ → α) (s : σ) : (osRead f s).trace = [] := rfl

/-! ## mirrorToGitlab -/

theorem addOrSetRemote_cases (sys : Sys σ) (url : String) (s : σ) :
    ((addOrSetRemote sys url s).val = none
        ∧ ((addOrSetRemote sys url s).trace
              = [Event.exec "git" ["remote", "add", "gitlab", url] none]
          ∨ ∃ e1, (addOrSetRemote sys url s).trace
              = [Event.exec "git" ["remote", "add", "gitlab", url] (some e1),
                 Event.exec "git" ["remote", "set-url", "gitlab", url] none]))
      ∨ ∃ e1 e2, (addOrSetRemote sys url s).val = some ("failed to set remote: " ++ e2)
          ∧ (addOrSetRemote sys url s).trace
              = [Event.exec "git" ["remote", "add", "gitlab", url] (some e1),
                 Event.exec "git" ["remote", "set-url", "gitlab", url] (some e2)] := by
  unfold addOrSetRemote
  cases h1 : (sys.run "git" ["remote", "add", "gitlab", url] s).1 with
  | none => left; simp [h1]
  | some e1 =>
    cases h2 : (sys.run "git" ["remote", "set-url", "gitlab", url]
        (sys.run "git" ["remote", "add", "gitlab", url] s).2).1 with
    | none => left; simp [h1, h2]
    | some e2 => right; exact ⟨e1, e2, by simp [h1, h2]⟩

theorem runConfigs_cases (sys : Sys σ) (l : List (List String)) (s : σ) :
    ((runConfigs sys l s).val = none
        ∧ (runConfigs sys l s).trace = l.map (fun a => Event.exec "git" a none))
      ∨ ∃ k a e, l[k]? = some a
          ∧ (runConfigs sys l s).val = some ("failed to configure git: " ++ e)
          ∧ (runConfigs sys l s).trace
              = (l.take k).map (fun a => Event.exec "git" a none)
                ++ [Event.exec "git" a (some e)] := by
  induction l generalizing s with
  | nil => left; simp [runConfigs]
  | cons a rest ih =>
    unfold runConfigs
    cases h1 : (sys.run "git" a s).1 with
    | some e => right; exact ⟨0, a, e, by simp, by simp [h1]⟩
    | none =>
      rcases ih (sys.run "git" a s).2 with ⟨hv, ht⟩ | ⟨k, b, e, hk, hv, ht⟩
      · left; simp [h1, hv, ht]
      · right; exact ⟨k + 1, b, e, by simpa using hk, by simp [h1, hv, ht]⟩

theorem reconcile_cases (sys : Sys σ) (url : String) (s : σ) :
    (∃ e1 e2, (reconcile sys url s).val = some ("failed to set remote: " ++ e2)
        ∧ (reconcile sys url s).trace
            = [Event.exec "git" ["remote", "add", "gitlab", url] (some e1),
               Event.exec "git" ["remote", "set-url", "gitlab", url] (some e2)])
      ∨ ∃ R, (R = [Event.exec "git" ["remote", "add", "gitlab", url] none]
            ∨ ∃ e1, R = [Event.exec "git" ["remote", "add", "gitlab", url] (some e1),
                         Event.exec "git" ["remote", "set-url", "gitlab", url] none])
          ∧ ((∃ k a e, configs[k]? = some a
                ∧ (reconcile sys url s).val = some ("failed to configure git: " ++ e)
                ∧ (reconcile sys url s).trace
                    = R ++ (configs.take k).map (fun a => Event.exec "git" a none)
                      ++ [Event.exec "git" a (some e)])
            ∨ ((reconcile sys url s).val = none
                ∧ (reconcile sys url s).trace
                    = R ++ configs.map (fun a => Event.exec "git" a none))) := by
  unfold reconcile
  rcases addOrSetRemote_cases sys url s with ⟨hv, ht⟩ | ⟨e1, e2, hv, ht⟩
  · right
    refine ⟨(addOrSetRemote sys url s).trace, ?_, ?_⟩
    · rcases ht with ht | ⟨e1, ht⟩
      · exact Or.inl ht
      · exact Or.inr ⟨e1, ht⟩
    · rcases runConfigs_cases sys configs (addOrSetRemote sys url s).state with
        ⟨hv2, ht2⟩ | ⟨k, a, e, hk, hv2, ht2⟩
      · right; simp [hv, hv2, ht2]
      · left; exact ⟨k, a, e, hk, by simp [hv, hv2], by simp [hv, ht2]⟩
  · left; exact ⟨e1, e2, by simp [hv], by simp [hv, ht]⟩

/-- C7: `mirrorToGitlab` issues its steps in the fixed order directory change, `remote add`
(with `remote set-url` exactly when the add fails), the six `config` commands, the push, and
stops at the first failing step: every run has one of five shapes, each listing the calls made
with their outcomes and the value returned. Only the last shape returns success, and in it the
directory change, the add or the set-url, the six settings and the push all succeeded; in the
others the error is the description of the failing step followed by its error, the failing
call is the last one made, and no call undoes an earlier one. -/
theorem mirrorToGitlab_steps (sys : Sys σ) (repoPath gitlabUser gitlabToken gitlabGroup : String)
    (s : σ) :
    let out := mirrorToGitlab sys repoPath gitlabUser gitlabToken gitlabGroup s
    let url := remoteURLOf gitlabUser gitlabToken gitlabGroup (sys.base repoPath)
    let start := Event.log "Mirroring %s to GitLab under the group %s..."
      [sys.base repoPath, gitlabGroup]
    (∃ e, out.val = some ("failed to change to repo directory: " ++ e)
        ∧ out.trace = [start, Event.chdir repoPath (some e)])
      ∨ (∃ e1 e2, out.val = some ("failed to set remote: " ++ e2)
          ∧ out.trace = [start, Event.chdir repoPath none,
              Event.exec "git" ["remote", "add", "gitlab", url] (some e1),
              Event.exec "git" ["remote", "set-url", "gitlab", url] (some e2)])
      ∨ ∃ R, (R = [Event.exec "git" ["remote", "add", "gitlab", url] none]
            ∨ ∃ e1, R = [Event.exec "git" ["remote", "add", "gitlab", url] (some e1),
                         Event.exec "git" ["remote", "set-url", "gitlab", url] none])
          ∧ ((∃ k a e, configs[k]? = some a
                ∧ out.val = some ("failed to configure git: " ++ e)
                ∧ out.trace = [start, Event.chdir repoPath none] ++ R
                    ++ (configs.take k).map (fun a => Event.exec "git" a none)
                    ++ [Event.exec "git" a (some e)])
            ∨ (∃ e, out.val = some ("failed to push to gitlab: " ++ e)
                ∧ out.trace = [start, Event.chdir repoPath none] ++ R
                    ++ configs.map (fun a => Event.exec "git" a none)
                    ++ [Event.exec "git" ["push", "--mirror", "gitlab"] (some e)])
            ∨ (out.val = none
                ∧ out.trace = [start, Event.chdir repoPath none] ++ R
                    ++ configs.map (fun a => Event.exec "git" a none)
                    ++ [Event.exec "git" ["push", "--mirror", "gitlab"] none,
                        Event.log "Successfully mirrored %s to GitLab" [sys.base repoPath]])) := by
  intro out url start
  have hout : out = mirrorToGitlab sys repoPath gitlabUser gitlabToken gitlabGroup s := rfl
  unfold mirrorToGitlab at hout
  cases h1 : (sys.chdir repoPath s).1 with
  | some e =>
    left
    exact ⟨e, by simp [hout, h1], by simp [hout, h1, start]⟩
  | none =>
    right
    rcases reconcile_cases sys url (sys.chdir repoPath s).2 with
      ⟨e1, e2, hv, ht⟩ | ⟨R, hR, ⟨k, a, e, hk, hv, ht⟩ | ⟨hv, ht⟩⟩
    · left
      exact ⟨e1, e2, by simp [hout, h1, url, hv] , by simp [hout, h1, hv, ht, start, url]⟩
    · right
      refine ⟨R, hR, Or.inl ⟨k, a, e, hk, by simp [hout, h1, url, hv], ?_⟩⟩
      simp [hout, h1, hv, ht, start, url]
    · right
      refine ⟨R, hR, Or.inr ?_⟩
      cases h3 : (sys.run "git" ["push", "--mirror", "gitlab"]
          (reconcile sys url (sys.chdir repoPath s).2).state).1 with
      | some e =>
        left
        exact ⟨e, by simp [hout, h1, url, hv, h3], by simp [hout, h1, hv, ht, h3, start, url]⟩
      | none =>
        right
        exact ⟨by simp [hout, h1, url, hv, h3], by simp [hout, h1, hv, ht, h3, start, url]⟩

/-! ## Shapes of traces -/

theorem addOrSetRemote_trace (sys : Sys σ) (url : String) (s : σ) :
    ∀ ev ∈ (addOrSetRemote sys url s).trace, ∃ a e, ev = Event.exec "git" a e := by
  intro ev hev
  rcases addOrSetRemote_cases sys url s with ⟨_, ht | ⟨e1, ht⟩⟩ | ⟨e1, e2, _, ht⟩ <;>
    · rw [ht] at hev
      simp only [List.mem_cons, List.mem_singleton, List.not_mem_nil, or_false] at hev
      rcases hev with rfl | rfl <;> exact ⟨_, _, rfl⟩

theorem runConfigs_trace (sys : Sys σ) (l : List (List String)) (s : σ) :
    ∀ ev ∈ (runConfigs sys l s).trace, ∃ a e, ev = Event.exec "git" a e := by
  induction l generalizing s with
  | nil => simp [runConfigs]
  | cons a rest ih =>
    intro ev hev
    unfold runConfigs at hev
    cases h1 : (sys.run "git" a s).1 with
    | some e =>
      simp [h1] at hev
      exact ⟨_, _, hev⟩
    | none =>
      simp [h1] at hev
      rcases hev with rfl | hev
      · exact ⟨_, _, rfl⟩
      · exact ih _ ev hev

theorem reconcile_trace (sys : Sys σ) (url : String) (s : σ) :
    ∀ ev ∈ (reconcile sys url s).trace, ∃ a e, ev = Event.exec "git" a e := by
  intro ev hev
  unfold reconcile at hev
  simp only [Prog.bind_trace, List.mem_append] at hev
  rcases hev with hev | hev
  · exact addOrSetRemote_trace sys url s ev hev
  · cases h : (addOrSetRemote sys url s).val with
    | some e => simp [h] at hev
    | none =>
      rw [h] at hev
      exact runConfigs_trace sys configs _ ev hev

/-- The trace of `mirrorToGitlab`: the announcement, the directory change, then only `git`
calls and the closing log line. -/
theorem mirrorToGitlab_trace (sys : Sys σ) (repoPath u t g : String) (s : σ) :
    ∃ rest, (mirrorToGitlab sys repoPath u t g s).trace
        = Event.log "Mirroring %s to GitLab under the group %s..." [sys.base repoPath, g]
          :: Event.chdir repoPath (sys.chdir repoPath s).1 :: rest
      ∧ ∀ ev ∈ rest, (∃ a e, ev = Event.exec "git" a e)
          ∨ ev = Event.log "Successfully mirrored %s to GitLab" [sys.base repoPath] := by
  unfold mirrorToGitlab
  cases h1 : (sys.chdir repoPath s).1 with
  | some e => exact ⟨[], by simp [h1], by simp⟩
  | none =>
    cases h2 : (reconcile sys (remoteURLOf u t g (sys.base repoPath))
        (sys.chdir repoPath s).2).val with
    | some e =>
      refine ⟨(reconcile sys (remoteURLOf u t g (sys.base repoPath))
        (sys.chdir repoPath s).2).trace, by simp [h1, h2], ?_⟩
      intro ev hev
      exact Or.inl (reconcile_trace _ _ _ ev hev)
    | none =>
      cases h3 : (sys.run "git" ["push", "--mirror", "gitlab"]
          (reconcile sys (remoteURLOf u t g (sys.base repoPath))
            (sys.chdir repoPath s).2).state).1 with
      | some e =>
        refine ⟨(reconcile sys (remoteURLOf u t g (sys.base repoPath))
          (sys.chdir repoPath s).2).trace
            ++ [Event.exec "git" ["push", "--mirror", "gitlab"] (some e)],
          by simp [h1, h2, h3], ?_⟩
        intro ev hev
        rcases List.mem_append.mp hev with hev | hev
        · exact Or.inl (reconcile_trace _ _ _ ev hev)
        · exact Or.inl ⟨_, _, List.mem_singleton.mp hev⟩
      | none =>
        refine ⟨(reconcile sys (remoteURLOf u t g (sys.base repoPath))
          (sys.chdir repoPath s).2).trace
            ++ [Event.exec "git" ["push", "--mirror", "gitlab"] none,
                Event.log "Successfully mirrored %s to GitLab" [sys.base repoPath]],
          by simp [h1, h2, h3], ?_⟩
        intro ev hev
        rcases List.mem_append.mp hev with hev | hev
        · exact Or.inl (reconcile_trace _ _ _ ev hev)
        · simp only [List.mem_cons, List.mem_singleton, List.not_mem_nil, or_false] at hev
          rcases hev with rfl | rfl
          · exact Or.inl ⟨_, _, rfl⟩
          · exact Or.inr rfl

theorem cloned_exec_other (name : String) (a : List String) (e : GoError)
    (h : name ≠ "ghorg") : cloned (Event.exec name a e) = none := by
  cases a with
  | nil => rfl
  | cons x xs => cases xs <;> simp [cloned, h]

/-! ## The repository loop -/

theorem mirrorLoop_skip (sys : Sys σ) (c : EntityConfig) (absDir : String) (entry : DirEntry)
    (rest : List DirEntry) (b : Batch) (s : σ) (h : entry.IsDir = false) :
    mirrorLoop sys c absDir (entry :: rest) b s = mirrorLoop sys c absDir rest b s := by
  simp [mirrorLoop, h]

/-- One turn of the loop on a directory entry whose mirroring fails. -/
theorem mirrorLoop_failed (sys : Sys σ) (c : EntityConfig) (absDir : String) (entry : DirEntry)
    (rest : List DirEntry) (b : Batch) (s : σ) (err : String) (h : entry.IsDir = true)
    (hm : (mirrorToGitlab sys (sys.join absDir entry.Name) c.GitLab.TokenName c.GitLab.Token
      c.GitLab.GroupName s).val = some err) :
    let m := mirrorToGitlab sys (sys.join absDir entry.Name) c.GitLab.TokenName c.GitLab.Token
      c.GitLab.GroupName s
    let next := mirrorLoop sys c absDir rest
      ⟨b.totalRepos + 1, b.failedRepos + 1, b.failedList ++ [entry.Name]⟩
      (sys.chdir ".." m.state).2
    (mirrorLoop sys c absDir (entry :: rest) b s).val = next.val
      ∧ (mirrorLoop sys c absDir (entry :: rest) b s).state = next.state
      ∧ (mirrorLoop sys c absDir (entry :: rest) b s).trace
        = m.trace ++ Event.log "Error mirroring %s: %v" [entry.Name, err]
            :: Event.chdir ".." (sys.chdir ".." m.state).1 :: next.trace := by
  simp [mirrorLoop, h, hm]

/-- One turn of the loop on a directory entry whose mirroring succeeds. -/
theorem mirrorLoop_ok (sys : Sys σ) (c : EntityConfig) (absDir : String) (entry : DirEntry)
    (rest : List DirEntry) (b : Batch) (s : σ) (h : entry.IsDir = true)
    (hm : (mirrorToGitlab sys (sys.join absDir entry.Name) c.GitLab.TokenName c.GitLab.Token
      c.GitLab.GroupName s).val = none) :
    let m := mirrorToGitlab sys (sys.join absDir entry.Name) c.GitLab.TokenName c.GitLab.Token
      c.GitLab.GroupName s
    let next := mirrorLoop sys c absDir rest ⟨b.totalRepos + 1, b.failedRepos, b.failedList⟩
      (sys.chdir ".." m.state).2
    (mirrorLoop sys c absDir (entry :: rest) b s).val = next.val
      ∧ (mirrorLoop sys c absDir (entry :: rest) b s).state = next.state
      ∧ (mirrorLoop sys c absDir (entry :: rest) b s).trace
        = m.trace ++ Event.chdir ".." (sys.chdir ".." m.state).1 :: next.trace := by
  simp [mirrorLoop, h, hm]

/-- Reading the trace of `mirrorToGitlab` with a reader that ignores `git` calls and the
closing log line leaves the announcement and the directory change. -/
theorem mirrorToGitlab_filterMap {β : Type} (f : Event → Option β)
    (hgit : ∀ a e, f (Event.exec "git" a e) = none)
    (hlog : ∀ n, f (Event.log "Successfully mirrored %s to GitLab" [n]) = none)
    (sys : Sys σ) (repoPath u t g : String) (s : σ) :
    (mirrorToGitlab sys repoPath u t g s).trace.filterMap f
      = [Event.log "Mirroring %s to GitLab under the group %s..." [sys.base repoPath, g],
          Event.chdir repoPath (sys.chdir repoPath s).1].filterMap f := by
  obtain ⟨rest, ht, hrest⟩ := mirrorToGitlab_trace sys repoPath u t g s
  have hnil : rest.filterMap f = [] := by
    rw [List.filterMap_eq_nil_iff]
    intro ev hev
    rcases hrest ev hev with ⟨a, e, rfl⟩ | rfl
    · exact hgit a e
    · exact hlog _
  rw [ht]
  show List.filterMap f ([_, _] ++ rest) = _
  rw [List.filterMap_append, hnil, List.append_nil]

theorem mirrorLoop_started (sys : Sys σ) (c : EntityConfig) (absDir : String)
    (entries : List DirEntry) (b : Batch) (s : σ) :
    (mirrorLoop sys c absDir entries b s).trace.filterMap mirrorStarted
      = (entries.filter (fun e => e.IsDir)).map (fun e => sys.base (sys.join absDir e.Name)) := by
  induction entries generalizing b s with
  | nil => simp [mirrorLoop]
  | cons entry rest ih =>
    cases h : entry.IsDir with
    | false => rw [mirrorLoop_skip _ _ _ _ _ _ _ h, ih]; simp [h]
    | true =>
      have hm := mirrorToGitlab_filterMap mirrorStarted (by intros; rfl) (by intros; rfl) sys
        (sys.join absDir entry.Name) c.GitLab.TokenName c.GitLab.Token c.GitLab.GroupName s
      cases hv : (mirrorToGitlab sys (sys.join absDir entry.Name) c.GitLab.TokenName
          c.GitLab.Token c.GitLab.GroupName s).val with
      | some err =>
        rw [(mirrorLoop_failed sys c absDir entry rest b s err h hv).2.2,
          List.filterMap_append, hm]
        simp [mirrorStarted, h, ih]
      | none =>
        rw [(mirrorLoop_ok sys c absDir entry rest b s h hv).2.2, List.filterMap_append, hm]
        simp [mirrorStarted, h, ih]

theorem mirrorLoop_chdirs (sys : Sys σ) (c : EntityConfig) (absDir : String)
    (entries : List DirEntry) (b : Batch) (s : σ) :
    (mirrorLoop sys c absDir entries b s).trace.filterMap chdirTarget
      = (entries.filter (fun e => e.IsDir)).flatMap
          (fun e => [sys.join absDir e.Name, ".."]) := by
  induction entries generalizing b s with
  | nil => simp [mirrorLoop]
  | cons entry rest ih =>
    cases h : entry.IsDir with
    | false => rw [mirrorLoop_skip _ _ _ _ _ _ _ h, ih]; simp [h]
    | true =>
      have hm := mirrorToGitlab_filterMap chdirTarget (by intros; rfl) (by intros; rfl) sys
        (sys.join absDir entry.Name) c.GitLab.TokenName c.GitLab.Token c.GitLab.GroupName s
      cases hv : (mirrorToGitlab sys (sys.join absDir entry.Name) c.GitLab.TokenName
          c.GitLab.Token c.GitLab.GroupName s).val with
      | some err =>
        rw [(mirrorLoop_failed sys c absDir entry rest b s err h hv).2.2,
          List.filterMap_append, hm]
        simp [chdirTarget, h, ih]
      | none =>
        rw [(mirrorLoop_ok sys c absDir entry rest b s h hv).2.2, List.filterMap_append, hm]
        simp [chdirTarget, h, ih]

theorem mirrorLoop_no_clone (sys : Sys σ) (c : EntityConfig) (absDir : String)
    (entries : List DirEntry) (b : Batch) (s : σ) :
    (mirrorLoop sys c absDir entries b s).trace.filterMap cloned = [] := by
  induction entries generalizing b s with
  | nil => simp [mirrorLoop]
  | cons entry rest ih =>
    cases h : entry.IsDir with
    | false => rw [mirrorLoop_skip _ _ _ _ _ _ _ h, ih]
    | true =>
      have hm := mirrorToGitlab_filterMap cloned
        (fun a e => cloned_exec_other "git" a e (by decide))
        (by intros; rfl) sys
        (sys.join absDir entry.Name) c.GitLab.TokenName c.GitLab.Token c.GitLab.GroupName s
      cases hv : (mirrorToGitlab sys (sys.join absDir entry.Name) c.GitLab.TokenName
          c.GitLab.Token c.GitLab.GroupName s).val with
      | some err =>
        rw [(mirrorLoop_failed sys c absDir entry rest b s err h hv).2.2,
          List.filterMap_append, hm]
        simp [cloned, ih]
      | none =>
        rw [(mirrorLoop_ok sys c absDir entry rest b s h hv).2.2, List.filterMap_append, hm]
        simp [cloned, ih]

/-- The batch after the loop: the total grows by the number of directory entries, the failed
names are those of the "Error mirroring" log lines in order, and the failure counter grows by
their number. -/
theorem mirrorLoop_batch (sys : Sys σ) (c : EntityConfig) (absDir : String)
    (entries : List DirEntry) (b : Batch) (s : σ) :
    (mirrorLoop sys c absDir entries b s).val.totalRepos
        = b.totalRepos + (entries.filter (fun e => e.IsDir)).length
      ∧ (mirrorLoop sys c absDir entries b s).val.failedList
        = b.failedList ++ (mirrorLoop sys c absDir entries b s).trace.filterMap mirrorFailed
      ∧ (mirrorLoop sys c absDir entries b s).val.failedRepos
        = b.failedRepos
          + ((mirrorLoop sys c absDir entries b s).trace.filterMap mirrorFailed).length
      ∧ ((mirrorLoop sys c absDir entries b s).trace.filterMap mirrorFailed).Sublist
          ((entries.filter (fun e => e.IsDir)).map (fun e => e.Name)) := by
  induction entries generalizing b s with
  | nil => simp [mirrorLoop]
  | cons entry rest ih =>
    cases h : entry.IsDir with
    | false =>
      rw [mirrorLoop_skip _ _ _ _ _ _ _ h]
      simpa [h] using ih b s
    | true =>
      have hm := mirrorToGitlab_filterMap mirrorFailed (by intros; rfl) (by intros; rfl) sys
        (sys.join absDir entry.Name) c.GitLab.TokenName c.GitLab.Token c.GitLab.GroupName s
      have hm0 : (mirrorToGitlab sys (sys.join absDir entry.Name) c.GitLab.TokenName
          c.GitLab.Token c.GitLab.GroupName s).trace.filterMap mirrorFailed = [] := by
        rw [hm]; simp [mirrorFailed]
      cases hv : (mirrorToGitlab sys (sys.join absDir entry.Name) c.GitLab.TokenName
          c.GitLab.Token c.GitLab.GroupName s).val with
      | some err =>
        obtain ⟨e1, _, e3⟩ := mirrorLoop_failed sys c absDir entry rest b s err h hv
        obtain ⟨i1, i2, i3, i4⟩ := ih ⟨b.totalRepos + 1, b.failedRepos + 1,
          b.failedList ++ [entry.Name]⟩ (sys.chdir ".." (mirrorToGitlab sys
            (sys.join absDir entry.Name) c.GitLab.TokenName c.GitLab.Token
            c.GitLab.GroupName s).state).2
        rw [e1, e3, List.filterMap_append, hm0]
        simp only [List.nil_append, List.filterMap_cons, mirrorFailed, if_true,
          List.filter_cons, h, List.map_cons, List.length_cons]
        refine ⟨by rw [i1]; simp; omega, by rw [i2]; simp, by rw [i3]; simp; omega, ?_⟩
        exact List.Sublist.cons₂ _ i4
      | none =>
        obtain ⟨e1, _, e3⟩ := mirrorLoop_ok sys c absDir entry rest b s h hv
        obtain ⟨i1, i2, i3, i4⟩ := ih ⟨b.totalRepos + 1, b.failedRepos, b.failedList⟩
          (sys.chdir ".." (mirrorToGitlab sys
            (sys.join absDir entry.Name) c.GitLab.TokenName c.GitLab.Token
            c.GitLab.GroupName s).state).2
        rw [e1, e3, List.filterMap_append, hm0]
        simp only [List.nil_append, List.filterMap_cons, mirrorFailed,
          List.filter_cons, h, List.map_cons, List.length_cons]
        refine ⟨by rw [i1]; simp; omega, by rw [i2], by rw [i3], ?_⟩
        exact List.Sublist.cons _ i4

/-- The loop over a concatenation is the loop over the first part followed by the loop over
the second, from the batch and the state the first part leaves. -/
theorem mirrorLoop_append (sys : Sys σ) (c : EntityConfig) (absDir : String)
    (pre post : List DirEntry) (b : Batch) (s : σ) :
    (mirrorLoop sys c absDir (pre ++ post) b s).val
        = (mirrorLoop sys c absDir post (mirrorLoop sys c absDir pre b s).val
            (mirrorLoop sys c absDir pre b s).state).val
      ∧ (mirrorLoop sys c absDir (pre ++ post) b s).state
        = (mirrorLoop sys c absDir post (mirrorLoop sys c absDir pre b s).val
            (mirrorLoop sys c absDir pre b s).state).state := by
  induction pre generalizing b s with
  | nil => simp [mirrorLoop]
  | cons entry rest ih =>
    rw [List.cons_append]
    cases h : entry.IsDir with
    | false =>
      rw [mirrorLoop_skip _ _ _ _ _ _ _ h, mirrorLoop_skip _ _ _ _ _ _ _ h]
      exact ih b s
    | true =>
      cases hv : (mirrorToGitlab sys (sys.join absDir entry.Name) c.GitLab.TokenName
          c.GitLab.Token c.GitLab.GroupName s).val with
      | some err =>
        obtain ⟨v1, s1, _⟩ := mirrorLoop_failed sys c absDir entry (rest ++ post) b s err h hv
        obtain ⟨v2, s2, _⟩ := mirrorLoop_failed sys c absDir entry rest b s err h hv
        rw [v1, s1, v2, s2]
        exact ih _ _
      | none =>
        obtain ⟨v1, s1, _⟩ := mirrorLoop_ok sys c absDir entry (rest ++ post) b s h hv
        obtain ⟨v2, s2, _⟩ := mirrorLoop_ok sys c absDir entry rest b s h hv
        rw [v1, s1, v2, s2]
        exact ih _ _

/-- One turn of the loop: the name of the entry is put on the list of failures exactly when
the entry is a directory and its call of `mirrorToGitlab` returns an error. -/
theorem mirrorLoop_single (sys : Sys σ) (c : EntityConfig) (absDir : String)
    (entry : DirEntry) (b : Batch) (s : σ) :
    (mirrorLoop sys c absDir [entry] b s).val.failedList
      = b.failedList
        ++ (if entry.IsDir = true
              ∧ (mirrorToGitlab sys (sys.join absDir entry.Name) c.GitLab.TokenName
                  c.GitLab.Token c.GitLab.GroupName s).val ≠ none
            then [entry.Name] else []) := by
  cases h : entry.IsDir with
  | false =>
    rw [mirrorLoop_skip _ _ _ _ _ _ _ h]
    simp [mirrorLoop]
  | true =>
    cases hv : (mirrorToGitlab sys (sys.join absDir entry.Name) c.GitLab.TokenName
        c.GitLab.Token c.GitLab.GroupName s).val with
    | some err =>
      rw [(mirrorLoop_failed sys c absDir entry [] b s err h hv).1]
      simp [mirrorLoop]
    | none =>
      rw [(mirrorLoop_ok sys c absDir entry [] b s h hv).1]
      simp [mirrorLoop]

/-! ## processRepositories -/

/-- When the backup directory of the entity resolves, exists and can be listed,
`processRepositories` logs, runs the loop over the listing, passes the summary of the batch to
the notification step and returns `nil`. -/
theorem processRepositories_listed (sys : Sys σ) (entityName : String) (c : EntityConfig)
    (backupDir webhookURL : String) (s : σ) (absDir : String) (entries : List DirEntry)
    (habs : sys.abs (sys.join backupDir (entityName ++ "_backup")) s = .ok absDir)
    (hstat : sys.statNotExist (sys.join backupDir (entityName ++ "_backup")) s = false)
    (hread : sys.readDir (sys.join backupDir (entityName ++ "_backup")) s = .ok entries) :
    (processRepositories sys entityName c backupDir webhookURL s).val = none
      ∧ (processRepositories sys entityName c backupDir webhookURL s).trace
        = Event.log "Processing %s repositories in %s..."
            [entityName, sys.join backupDir (entityName ++ "_backup")]
          :: ((mirrorLoop sys c absDir entries ⟨0, 0, []⟩ s).trace
            ++ (notify sys
                (summaryText entityName (mirrorLoop sys c absDir entries ⟨0, 0, []⟩ s).val)
                webhookURL (mirrorLoop sys c absDir entries ⟨0, 0, []⟩ s).state).trace) := by
  unfold processRepositories
  simp [habs, hstat, hread]

/-- The notification step makes at most a `curl` call and a log line about its failure. -/
theorem notify_trace (sys : Sys σ) (summary webhookURL : String) (s : σ) :
    ∀ ev ∈ (notify sys summary webhookURL s).trace,
      (∃ a e, ev = Event.exec "curl" a e)
        ∨ ∃ e, ev = Event.log "Failed to send Discord message: %v" [e] := by
  intro ev hev
  unfold notify sendDiscordMessage at hev
  by_cases hw : webhookURL = ""
  · simp [hw] at hev
  · simp only [ne_eq, hw, not_false_eq_true, if_true, if_false, Prog.bind_trace,
      execRun_trace, List.mem_append, List.mem_singleton] at hev
    rcases hev with rfl | hev
    · exact Or.inl ⟨_, _, rfl⟩
    · cases h : (sys.run "curl" ["-H", "Content-Type: application/json", "-d",
          discordPayload summary, "-X", "POST", webhookURL] s).1 with
      | none => simp [h] at hev
      | some e =>
        simp [h] at hev
        exact Or.inr ⟨e, hev⟩

theorem notify_filterMap {β : Type} (f : Event → Option β)
    (hcurl : ∀ a e, f (Event.exec "curl" a e) = none)
    (hlog : ∀ e, f (Event.log "Failed to send Discord message: %v" [e]) = none)
    (sys : Sys σ) (summary webhookURL : String) (s : σ) :
    (notify sys summary webhookURL s).trace.filterMap f = [] := by
  rw [List.filterMap_eq_nil_iff]
  intro ev hev
  rcases notify_trace sys summary webhookURL s ev hev with ⟨a, e, rfl⟩ | ⟨e, rfl⟩
  · exact hcurl a e
  · exact hlog e

/-- C4: on a backup directory that lists as `entries`, `processRepositories` calls
`mirrorToGitlab` once for each entry that is a directory, in listing order, and for no other
entry (each call announces itself and changes into the repository, and the loop changes back),
whatever the calls return; the total counted is the number of directory entries; and the batch
returns `nil`. -/
theorem processRepositories_attempts_every_directory (sys : Sys σ) (entityName : String)
    (c : EntityConfig) (backupDir webhookURL : String) (s : σ) (absDir : String)
    (entries : List DirEntry)
    (habs : sys.abs (sys.join backupDir (entityName ++ "_backup")) s = .ok absDir)
    (hstat : sys.statNotExist (sys.join backupDir (entityName ++ "_backup")) s = false)
    (hread : sys.readDir (sys.join backupDir (entityName ++ "_backup")) s = .ok entries) :
    (processRepositories sys entityName c backupDir webhookURL s).trace.filterMap mirrorStarted
        = (entries.filter (fun e => e.IsDir)).map (fun e => sys.base (sys.join absDir e.Name))
      ∧ (processRepositories sys entityName c backupDir webhookURL s).trace.filterMap chdirTarget
        = (entries.filter (fun e => e.IsDir)).flatMap (fun e => [sys.join absDir e.Name, ".."])
      ∧ (mirrorLoop sys c absDir entries ⟨0, 0, []⟩ s).val.totalRepos
        = (entries.filter (fun e => e.IsDir)).length
      ∧ (processRepositories sys entityName c backupDir webhookURL s).val = none := by
  obtain ⟨hval, htrace⟩ := processRepositories_listed sys entityName c backupDir webhookURL s
    absDir entries habs hstat hread
  refine ⟨?_, ?_, ?_, hval⟩
  · rw [htrace, List.filterMap_cons, List.filterMap_append, mirrorLoop_started,
      notify_filterMap mirrorStarted (by intros; rfl) (by intros; rfl)]
    simp [mirrorStarted]
  · rw [htrace, List.filterMap_cons, List.filterMap_append, mirrorLoop_chdirs,
      notify_filterMap chdirTarget (by intros; rfl) (by intros; rfl)]
    simp [chdirTarget]
  · have h := (mirrorLoop_batch sys c absDir entries ⟨0, 0, []⟩ s).1
    simpa using h

/-- C4 at a concrete input: the listing holds the directories `api` and `web` and a file; the
push of `api` fails, and `web` is attempted all the same. -/
theorem processRepositories_attempts_every_directory_witness :
    (processRepositories (simSys []) "alice" sampleEntity "backup" ""
        (sampleWorld [none, none, none, none, none, none, none, some "exit status 1"])
      ).trace.filterMap mirrorStarted = ["api", "web"]
      ∧ (processRepositories (simSys []) "alice" sampleEntity "backup" ""
          (sampleWorld [none, none, none, none, none, none, none, some "exit status 1"])
        ).trace.filterMap mirrorFailed = ["api"] :=
  ⟨(processRepositories_attempts_every_directory (simSys []) "alice" sampleEntity "backup" ""
      (sampleWorld [none, none, none, none, none, none, none, some "exit status 1"])
      "/work/backup/alice_backup"
      [⟨"api", true⟩, ⟨"notes.txt", false⟩, ⟨"web", true⟩]
      (by decide) (by decide) (by decide)).1.trans (by decide),
    by decide⟩

theorem summaryText_eq (entityName : String) (b : Batch) :
    summaryText entityName b
      = "[" ++ entityName ++ "] " ++ toString b.totalRepos ++ " repositories mirrored, "
        ++ toString b.failedRepos ++ " error(s) occurred."
        ++ (if b.failedList = [] then ""
            else "\nFailed repos: [" ++ " ".intercalate b.failedList ++ "]") := by
  unfold summaryText formatStrings
  cases h : b.failedList with
  | nil => simp
  | cons a l =>
    have hlit : ∀ x : String, "\nFailed repos: " ++ ("[" ++ x) = "\nFailed repos: [" ++ x := by
      intro x
      rw [← String.append_assoc]
      congr 1
    simp [String.append_assoc, hlit]

/-- C5: on a backup directory that lists as `entries`, the summary that
`processRepositories` composes and passes to the notification step is
`[<entity>] <total> repositories mirrored, <failures> error(s) occurred.`, where the total is
the number of directory entries and the failures the number of failed names, followed exactly
when a repository failed by a line with the failed names; the failed names are those of the
"Error mirroring" log lines in the order they were written, a sublist of the names of the
directory entries, so `failures = len(failedNames) ≤ total`; with a total of five and the
failures `a` then `c` the text contains `5 repositories mirrored, 2 error(s) occurred` and
then `a` and `c` in that order. The failed names are those of the repositories whose mirroring
failed: for every entry of the listing, the loop up to and including that entry has the
failed names of the loop before it, followed by the name of the entry exactly when the entry
is a directory and its call of `mirrorToGitlab`, made from the state the loop has reached,
returns an error; what is listed then stays at the head of the final list; and the whole loop
is the loop before the entry followed by the loop over the entry and the entries after it. -/
theorem processRepositories_summary (sys : Sys σ) (entityName : String) (c : EntityConfig)
    (backupDir webhookURL : String) (s : σ) (absDir : String) (entries : List DirEntry)
    (habs : sys.abs (sys.join backupDir (entityName ++ "_backup")) s = .ok absDir)
    (hstat : sys.statNotExist (sys.join backupDir (entityName ++ "_backup")) s = false)
    (hread : sys.readDir (sys.join backupDir (entityName ++ "_backup")) s = .ok entries) :
    let loop := mirrorLoop sys c absDir entries ⟨0, 0, []⟩ s
    (processRepositories sys entityName c backupDir webhookURL s).trace
        = Event.log "Processing %s repositories in %s..."
            [entityName, sys.join backupDir (entityName ++ "_backup")]
          :: (loop.trace
            ++ (notify sys (summaryText entityName loop.val) webhookURL loop.state).trace)
      ∧ summaryText entityName loop.val
        = "[" ++ entityName ++ "] " ++ toString (entries.filter (fun e => e.IsDir)).length
          ++ " repositories mirrored, " ++ toString loop.val.failedList.length
          ++ " error(s) occurred."
          ++ (if loop.val.failedList = [] then ""
              else "\nFailed repos: [" ++ " ".intercalate loop.val.failedList ++ "]")
      ∧ loop.val.totalRepos = (entries.filter (fun e => e.IsDir)).length
      ∧ loop.val.failedRepos = loop.val.failedList.length
      ∧ loop.val.failedList.length ≤ loop.val.totalRepos
      ∧ loop.val.failedList
        = (processRepositories sys entityName c backupDir webhookURL s).trace.filterMap
            mirrorFailed
      ∧ loop.val.failedList.Sublist ((entries.filter (fun e => e.IsDir)).map (fun e => e.Name))
      ∧ (∀ e a c, summaryText e ⟨5, 2, [a, c]⟩
          = "[" ++ e ++ "] " ++ "5 repositories mirrored, 2 error(s) occurred"
            ++ ".\nFailed repos: [" ++ a ++ " " ++ c ++ "]")
      ∧ ∀ pre entry post, entries = pre ++ entry :: post →
          (mirrorLoop sys c absDir (pre ++ [entry]) ⟨0, 0, []⟩ s).val.failedList
              = (mirrorLoop sys c absDir pre ⟨0, 0, []⟩ s).val.failedList
                ++ (if entry.IsDir = true
                      ∧ (mirrorToGitlab sys (sys.join absDir entry.Name) c.GitLab.TokenName
                          c.GitLab.Token c.GitLab.GroupName
                          (mirrorLoop sys c absDir pre ⟨0, 0, []⟩ s).state).val ≠ none
                    then [entry.Name] else [])
            ∧ (∃ later, loop.val.failedList
                = (mirrorLoop sys c absDir (pre ++ [entry]) ⟨0, 0, []⟩ s).val.failedList
                  ++ later)
            ∧ loop.val
              = (mirrorLoop sys c absDir (entry :: post)
                  (mirrorLoop sys c absDir pre ⟨0, 0, []⟩ s).val
                  (mirrorLoop sys c absDir pre ⟨0, 0, []⟩ s).state).val := by
  intro loop
  obtain ⟨_, htrace⟩ := processRepositories_listed sys entityName c backupDir webhookURL s
    absDir entries habs hstat hread
  obtain ⟨h1, h2, h3, h4⟩ := mirrorLoop_batch sys c absDir entries ⟨0, 0, []⟩ s
  simp only [Nat.zero_add, List.nil_append] at h1 h2 h3
  have hlen : loop.val.failedList.length ≤ loop.val.totalRepos := by
    have := h4.length_le
    rw [List.length_map] at this
    show (mirrorLoop sys c absDir entries ⟨0, 0, []⟩ s).val.failedList.length
      ≤ (mirrorLoop sys c absDir entries ⟨0, 0, []⟩ s).val.totalRepos
    rw [h1, h2]
    exact this
  have hrep : loop.val.failedRepos = loop.val.failedList.length := by
    show (mirrorLoop sys c absDir entries ⟨0, 0, []⟩ s).val.failedRepos
      = (mirrorLoop sys c absDir entries ⟨0, 0, []⟩ s).val.failedList.length
    rw [h3, h2]
  refine ⟨htrace, ?_, h1, hrep, hlen, ?_, ?_, ?_, ?_⟩
  · rw [summaryText_eq, hrep]
    show _ = "[" ++ entityName ++ "] " ++ toString (entries.filter (fun e => e.IsDir)).length
      ++ _ ++ _ ++ _ ++ _
    rw [← h1]
  · rw [htrace, List.filterMap_cons, List.filterMap_append,
      notify_filterMap mirrorFailed (by intros; rfl) (by intros; rfl)]
    simpa [mirrorFailed] using h2
  · show (mirrorLoop sys c absDir entries ⟨0, 0, []⟩ s).val.failedList.Sublist _
    rw [h2]
    exact h4
  · intro e a c
    rw [summaryText_eq]
    have h5 : toString (5 : Nat) = "5" := by decide
    have h2' : toString (2 : Nat) = "2" := by decide
    have hlit : ∀ x : String, "5" ++ (" repositories mirrored, " ++ ("2"
        ++ (" error(s) occurred." ++ ("\nFailed repos: [" ++ x))))
        = "5 repositories mirrored, 2 error(s) occurred" ++ (".\nFailed repos: [" ++ x) := by
      intro x
      simp only [← String.append_assoc]
      congr 1
    simp only [h5, h2', String.intercalate, String.intercalate.go, String.append_assoc]
    simp [hlit]
  · intro pre entry post hsplit
    refine ⟨?_, ?_, ?_⟩
    · rw [(mirrorLoop_append sys c absDir pre [entry] ⟨0, 0, []⟩ s).1]
      exact mirrorLoop_single sys c absDir entry _ _
    · have hall : entries = (pre ++ [entry]) ++ post := by rw [hsplit]; simp
      refine ⟨(mirrorLoop sys c absDir post
        (mirrorLoop sys c absDir (pre ++ [entry]) ⟨0, 0, []⟩ s).val
        (mirrorLoop sys c absDir (pre ++ [entry]) ⟨0, 0, []⟩ s).state).trace.filterMap
          mirrorFailed, ?_⟩
      show (mirrorLoop sys c absDir entries ⟨0, 0, []⟩ s).val.failedList = _
      rw [hall, (mirrorLoop_append sys c absDir (pre ++ [entry]) post ⟨0, 0, []⟩ s).1]
      exact (mirrorLoop_batch sys c absDir post _ _).2.1
    · show (mirrorLoop sys c absDir entries ⟨0, 0, []⟩ s).val = _
      rw [hsplit]
      exact (mirrorLoop_append sys c absDir pre (entry :: post) ⟨0, 0, []⟩ s).1

/-- C5 at a concrete input: two repositories, the push of `api` fails. -/
theorem processRepositories_summary_witness :
    (simSys []).readDir ((simSys []).join "backup" ("alice" ++ "_backup"))
        (sampleWorld [none, none, none, none, none, none, none, some "exit status 1"])
      = .ok [⟨"api", true⟩, ⟨"notes.txt", false⟩, ⟨"web", true⟩]
    ∧ summaryText "alice"
        (mirrorLoop (simSys []) sampleEntity "/work/backup/alice_backup"
          [⟨"api", true⟩, ⟨"notes.txt", false⟩, ⟨"web", true⟩] ⟨0, 0, []⟩
          (sampleWorld [none, none, none, none, none, none, none, some "exit status 1"])).val
      = "[alice] 2 repositories mirrored, 1 error(s) occurred.\nFailed repos: [api]" :=
  ⟨by decide,
    (processRepositories_summary (simSys []) "alice" sampleEntity "backup" "hook"
      (sampleWorld [none, none, none, none, none, none, none, some "exit status 1"])
      "/work/backup/alice_backup"
      [⟨"api", true⟩, ⟨"notes.txt", false⟩, ⟨"web", true⟩]
      (by decide) (by decide) (by decide)).2.1.trans (by decide)⟩

/-! ## The run -/

theorem processRepositories_no_clone (sys : Sys σ) (entityName : String) (c : EntityConfig)
    (backupDir webhookURL : String) (s : σ) :
    (processRepositories sys entityName c backupDir webhookURL s).trace.filterMap cloned
      = [] := by
  cases habs : sys.abs (sys.join backupDir (entityName ++ "_backup")) s with
  | error e => simp [processRepositories, habs]
  | ok absDir =>
    cases hstat : sys.statNotExist (sys.join backupDir (entityName ++ "_backup")) s with
    | true => simp [processRepositories, habs, hstat, cloned]
    | false =>
      cases hread : sys.readDir (sys.join backupDir (entityName ++ "_backup")) s with
      | error e => simp [processRepositories, habs, hstat, hread, cloned]
      | ok entries =>
        rw [(processRepositories_listed sys entityName c backupDir webhookURL s absDir entries
          habs hstat hread).2, List.filterMap_cons, List.filterMap_append, mirrorLoop_no_clone,
          notify_filterMap cloned (fun a e => cloned_exec_other "curl" a e (by decide))
            (by intros; rfl)]
        simp [cloned]

/-- One turn of the entity loop when the clone fails. -/
theorem runEntities_clone_failed (sys : Sys σ) (config : Config) (doPush : Bool)
    (dir entity : String) (rest : List String) (s : σ) (err : String)
    (h : (sys.run "ghorg" (cloneArgs entity (mapIndex config.Entities entity) dir) s).1
      = some err) :
    (runEntities sys config doPush dir (entity :: rest) s).trace
        = Event.exec "ghorg" (cloneArgs entity (mapIndex config.Entities entity) dir) (some err)
          :: Event.log "Warning: Failed to clone %s repositories: %v" [entity, err]
          :: (runEntities sys config doPush dir rest
              (sys.run "ghorg" (cloneArgs entity (mapIndex config.Entities entity) dir) s).2
            ).trace
      ∧ (runEntities sys config doPush dir (entity :: rest) s).state
        = (runEntities sys config doPush dir rest
            (sys.run "ghorg" (cloneArgs entity (mapIndex config.Entities entity) dir) s).2
          ).state := by
  simp [runEntities, h]

/-- One turn of the entity loop when the clone succeeds and pushing is disabled. -/
theorem runEntities_clone_only (sys : Sys σ) (config : Config) (doPush : Bool)
    (dir entity : String) (rest : List String) (s : σ)
    (h : (sys.run "ghorg" (cloneArgs entity (mapIndex config.Entities entity) dir) s).1 = none)
    (hpush : doPush = false) :
    (runEntities sys config doPush dir (entity :: rest) s).trace
        = Event.exec "ghorg" (cloneArgs entity (mapIndex config.Entities entity) dir) none
          :: (runEntities sys config doPush dir rest
              (sys.run "ghorg" (cloneArgs entity (mapIndex config.Entities entity) dir) s).2
            ).trace
      ∧ (runEntities sys config doPush dir (entity :: rest) s).state
        = (runEntities sys config doPush dir rest
            (sys.run "ghorg" (cloneArgs entity (mapIndex config.Entities entity) dir) s).2
          ).state := by
  subst hpush
  simp [runEntities, h]

/-- One turn of the entity loop when the clone succeeds and pushing is enabled. -/
theorem runEntities_clone_push (sys : Sys σ) (config : Config) (doPush : Bool)
    (dir entity : String) (rest : List String) (s : σ)
    (h : (sys.run "ghorg" (cloneArgs entity (mapIndex config.Entities entity) dir) s).1 = none)
    (hpush : doPush = true) :
    (runEntities sys config doPush dir (entity :: rest) s).trace
        = Event.exec "ghorg" (cloneArgs entity (mapIndex config.Entities entity) dir) none
          :: ((processRepositories sys entity (mapIndex config.Entities entity) dir
                config.DiscordWebhook
                (sys.run "ghorg" (cloneArgs entity (mapIndex config.Entities entity) dir) s).2
              ).trace
            ++ batchErrorLog entity (processRepositories sys entity
                (mapIndex config.Entities entity) dir config.DiscordWebhook
                (sys.run "ghorg" (cloneArgs entity (mapIndex config.Entities entity) dir) s).2
              ).val
            ++ (runEntities sys config doPush dir rest (processRepositories sys entity
                (mapIndex config.Entities entity) dir config.DiscordWebhook
                (sys.run "ghorg" (cloneArgs entity (mapIndex config.Entities entity) dir) s).2
              ).state).trace)
      ∧ (runEntities sys config doPush dir (entity :: rest) s).state
        = (runEntities sys config doPush dir rest (processRepositories sys entity
            (mapIndex config.Entities entity) dir config.DiscordWebhook
            (sys.run "ghorg" (cloneArgs entity (mapIndex config.Entities entity) dir) s).2
          ).state).state := by
  subst hpush
  cases hb : (processRepositories sys entity (mapIndex config.Entities entity) dir
      config.DiscordWebhook
      (sys.run "ghorg" (cloneArgs entity (mapIndex config.Entities entity) dir) s).2).val with
  | none => simp [runEntities, h, hb, batchErrorLog]
  | some err => simp [runEntities, h, hb, batchErrorLog]

/-- The entity loop over a concatenation is the loop over the first part followed by the loop
over the second, from the state the first part leaves. -/
theorem runEntities_append (sys : Sys σ) (config : Config) (doPush : Bool) (dir : String)
    (pre post : List String) (s : σ) :
    (runEntities sys config doPush dir (pre ++ post) s).trace
        = (runEntities sys config doPush dir pre s).trace
          ++ (runEntities sys config doPush dir post
              (runEntities sys config doPush dir pre s).state).trace
      ∧ (runEntities sys config doPush dir (pre ++ post) s).state
        = (runEntities sys config doPush dir post
            (runEntities sys config doPush dir pre s).state).state := by
  induction pre generalizing s with
  | nil => simp [runEntities]
  | cons e rest ih =>
    rw [List.cons_append]
    cases h : (sys.run "ghorg" (cloneArgs e (mapIndex config.Entities e) dir) s).1 with
    | some err =>
      obtain ⟨t1, s1⟩ := runEntities_clone_failed sys config doPush dir e (rest ++ post) s err h
      obtain ⟨t2, s2⟩ := runEntities_clone_failed sys config doPush dir e rest s err h
      rw [t1, s1, t2, s2, (ih _).1, (ih _).2]
      simp
    | none =>
      cases doPush with
      | false =>
        obtain ⟨t1, s1⟩ := runEntities_clone_only sys config false dir e (rest ++ post) s h rfl
        obtain ⟨t2, s2⟩ := runEntities_clone_only sys config false dir e rest s h rfl
        rw [t1, s1, t2, s2, (ih _).1, (ih _).2]
        simp
      | true =>
        obtain ⟨t1, s1⟩ := runEntities_clone_push sys config true dir e (rest ++ post) s h rfl
        obtain ⟨t2, s2⟩ := runEntities_clone_push sys config true dir e rest s h rfl
        rw [t1, s1, t2, s2, (ih _).1, (ih _).2]
        simp

/-- The clone calls of the entity loop: one per entity, in the order given. -/
theorem runEntities_cloned (sys : Sys σ) (config : Config) (doPush : Bool) (dir : String)
    (names : List String) (s : σ) :
    (runEntities sys config doPush dir names s).trace.filterMap cloned = names := by
  induction names generalizing s with
  | nil => simp [runEntities]
  | cons e rest ih =>
    cases h : (sys.run "ghorg" (cloneArgs e (mapIndex config.Entities e) dir) s).1 with
    | some err =>
      rw [(runEntities_clone_failed sys config doPush dir e rest s err h).1]
      simp [cloned, cloneArgs, ih]
    | none =>
      cases doPush with
      | false =>
        rw [(runEntities_clone_only sys config false dir e rest s h rfl).1]
        simp [cloned, cloneArgs, ih]
      | true =>
        rw [(runEntities_clone_push sys config true dir e rest s h rfl).1]
        simp only [List.filterMap_cons, List.filterMap_append, processRepositories_no_clone, ih]
        cases hb : (processRepositories sys e (mapIndex config.Entities e) dir
          config.DiscordWebhook
          (sys.run "ghorg" (cloneArgs e (mapIndex config.Entities e) dir) s).2).val <;>
          simp [cloned, cloneArgs, batchErrorLog]

/-- With a list of entities that parses, a backup root that can be created and a
configuration that loads, `RunE` runs the entity loop and returns `nil`. -/
theorem runE_loaded (sys : Sys σ) (flags : Flags) (s : σ) (names : List String)
    (config : Config) (hpath : flags.backupDir ≠ "") (hent : flags.entities ≠ "")
    (hnames : entityListOf flags.entities = .ok names)
    (hmk : (sys.mkdirAll (sys.expandEnv flags.backupDir s) s).1 = none)
    (hload : (loadConfig sys
        (sys.expandEnv flags.configFile (sys.mkdirAll (sys.expandEnv flags.backupDir s) s).2)
        names (sys.mkdirAll (sys.expandEnv flags.backupDir s) s).2).val = .ok config) :
    (RunE sys flags s).val = none
      ∧ (RunE sys flags s).trace
        = Event.mkdirAll (sys.expandEnv flags.backupDir s) none
          :: (runEntities sys config flags.doPush (sys.expandEnv flags.backupDir s) names
              (sys.mkdirAll (sys.expandEnv flags.backupDir s) s).2).trace := by
  have hstate : ∀ f n st, (loadConfig sys f n st).state = st := by
    intro f n st
    unfold loadConfig
    simp only [Prog.bind_state, osRead_state, osRead_val]
    cases sys.readFile f st with
    | error e => rfl
    | ok data =>
      simp only
      cases sys.unmarshal data with
      | error e => rfl
      | ok c =>
        simp only
        cases validateEntities c.Entities n <;> rfl
  have htrace : ∀ f n st, (loadConfig sys f n st).trace = [] := by
    intro f n st
    unfold loadConfig
    simp only [Prog.bind_trace, osRead_state, osRead_val, osRead_trace, List.nil_append]
    cases sys.readFile f st with
    | error e => rfl
    | ok data =>
      simp only
      cases sys.unmarshal data with
      | error e => rfl
      | ok c =>
        simp only
        cases validateEntities c.Entities n <;> rfl
  unfold RunE
  simp only [hpath, hent, if_false, hnames]
  simp [osMkdirAll, hmk, hload, hstate, htrace]

/-- C8: in a run whose entity list parses, whose backup root can be created and whose
configuration loads (so every requested entity is validated), `RunE` returns `nil` whatever
the clones and batches do; the cloning tool is called once per entity in the order given; and
for every entity `e` of the list, wherever it stands and whatever happened before it: if its
clone fails, the only thing done for it besides the clone is the warning log (no mirroring, no
summary) and the loop goes on with the entities after it; if its clone succeeds and pushing is
disabled nothing more is done for it; if its clone succeeds and pushing is enabled
`processRepositories` is run for it, and the loop goes on whatever it returns. -/
theorem runE_entities_independent (sys : Sys σ) (flags : Flags) (s0 : σ) (names : List String)
    (config : Config) (pre post : List String) (e : String)
    (hpath : flags.backupDir ≠ "") (hent : flags.entities ≠ "")
    (hnames : entityListOf flags.entities = .ok names)
    (hmk : (sys.mkdirAll (sys.expandEnv flags.backupDir s0) s0).1 = none)
    (hload : (loadConfig sys
        (sys.expandEnv flags.configFile (sys.mkdirAll (sys.expandEnv flags.backupDir s0) s0).2)
        names (sys.mkdirAll (sys.expandEnv flags.backupDir s0) s0).2).val = .ok config)
    (hsplit : names = pre ++ e :: post) :
    let dir := sys.expandEnv flags.backupDir s0
    let before := runEntities sys config flags.doPush dir pre (sys.mkdirAll dir s0).2
    let args := cloneArgs e (mapIndex config.Entities e) dir
    let clone := sys.run "ghorg" args before.state
    let batch := processRepositories sys e (mapIndex config.Entities e) dir
      config.DiscordWebhook clone.2
    (RunE sys flags s0).val = none
      ∧ (RunE sys flags s0).trace.filterMap cloned = names
      ∧ (∀ err, clone.1 = some err →
          (RunE sys flags s0).trace
            = Event.mkdirAll dir none :: (before.trace
              ++ [Event.exec "ghorg" args (some err),
                  Event.log "Warning: Failed to clone %s repositories: %v" [e, err]]
              ++ (runEntities sys config flags.doPush dir post clone.2).trace))
      ∧ (clone.1 = none → flags.doPush = false →
          (RunE sys flags s0).trace
            = Event.mkdirAll dir none :: (before.trace
              ++ [Event.exec "ghorg" args none]
              ++ (runEntities sys config flags.doPush dir post clone.2).trace))
      ∧ (clone.1 = none → flags.doPush = true →
          (RunE sys flags s0).trace
            = Event.mkdirAll dir none :: (before.trace
              ++ [Event.exec "ghorg" args none] ++ batch.trace ++ batchErrorLog e batch.val
              ++ (runEntities sys config flags.doPush dir post batch.state).trace)) := by
  intro dir before args clone batch
  obtain ⟨hval, htrace⟩ := runE_loaded sys flags s0 names config hpath hent hnames hmk hload
  have happ := (runEntities_append sys config flags.doPush dir pre (e :: post)
    (sys.mkdirAll dir s0).2).1
  refine ⟨hval, ?_, ?_, ?_, ?_⟩
  · rw [htrace, List.filterMap_cons, runEntities_cloned]
    rfl
  · intro err herr
    rw [htrace, hsplit, happ,
      (runEntities_clone_failed sys config flags.doPush dir e post before.state err herr).1]
    simp
  · intro hok hpush
    rw [htrace, hsplit, happ,
      (runEntities_clone_only sys config flags.doPush dir e post before.state hok hpush).1]
    simp
  · intro hok hpush
    rw [htrace, hsplit, happ,
      (runEntities_clone_push sys config flags.doPush dir e post before.state hok hpush).1]
    simp

/-- C8 at a concrete input: the clone of `carol`, the first entity, fails; `alice` is still
cloned and, pushing being enabled, her two repositories are mirrored; the run returns `nil`. -/
theorem runE_entities_independent_witness :
    entityListOf "carol, alice" = .ok ["carol", "alice"]
      ∧ (RunE (simSys [("doc", sampleConfigTwo)]) ⟨"cfg.yaml", "backup", "carol, alice", true⟩
          (sampleWorld [some "exit status 1"])).val = none
      ∧ (RunE (simSys [("doc", sampleConfigTwo)]) ⟨"cfg.yaml", "backup", "carol, alice", true⟩
          (sampleWorld [some "exit status 1"])).trace.filterMap cloned = ["carol", "alice"]
      ∧ (RunE (simSys [("doc", sampleConfigTwo)]) ⟨"cfg.yaml", "backup", "carol, alice", true⟩
          (sampleWorld [some "exit status 1"])).trace.filterMap mirrorStarted = ["api", "web"] :=
  ⟨by decide,
    (runE_entities_independent (simSys [("doc", sampleConfigTwo)])
      ⟨"cfg.yaml", "backup", "carol, alice", true⟩ (sampleWorld [some "exit status 1"])
      ["carol", "alice"] sampleConfigTwo [] ["alice"] "carol"
      (by decide) (by decide) (by decide) (by decide) (by decide) rfl).1,
    by decide, by decide⟩

/-- C3: in a run whose requested list holds an entity that is missing from the configuration
read, or whose entry is not complete, `RunE` returns an error and its trace holds no call of an
external command: neither the cloning tool nor `git` nor `curl` is run for any entity. -/
theorem runE_validation_gate (sys : Sys σ) (flags : Flags) (s : σ) (names : List String)
    (data : String) (config : Config)
    (hnames : entityListOf flags.entities = .ok names)
    (hread : sys.readFile
        (sys.expandEnv flags.configFile (sys.mkdirAll (sys.expandEnv flags.backupDir s) s).2)
        (sys.mkdirAll (sys.expandEnv flags.backupDir s) s).2 = .ok data)
    (hparse : sys.unmarshal data = .ok config)
    (hbad : ∃ e ∈ names, ¬ ∃ c, mapGet config.Entities e = some c ∧ c.Complete) :
    (∃ err, (RunE sys flags s).val = some err)
      ∧ (RunE sys flags s).trace.filterMap execName = [] := by
  unfold RunE
  by_cases hpath : flags.backupDir = ""
  · simp [hpath]
  by_cases hent : flags.entities = ""
  · simp [hpath, hent]
  simp only [hpath, hent, if_false, hnames]
  cases hmk : (sys.mkdirAll (sys.expandEnv flags.backupDir s) s).1 with
  | some err => simp [osMkdirAll, hmk, execName]
  | none =>
    cases hv : validateEntities config.Entities names with
    | none =>
      obtain ⟨e, he, hne⟩ := hbad
      exact absurd ((validateEntities_eq_none_iff config.Entities names).mp hv e he) hne
    | some err => simp [osMkdirAll, hmk, loadConfig, hread, hparse, hv, execName]

/-- C3 at a concrete input: `alice` is valid and listed first, `bob` has no settings; the run
fails and its only call is the creation of the backup root. -/
theorem runE_validation_gate_witness :
    (∃ e ∈ ["alice", "bob"], ¬ ∃ c, mapGet sampleConfig.Entities e = some c ∧ c.Complete)
      ∧ (∃ err, (RunE (simSys [("doc", sampleConfig)]) ⟨"cfg.yaml", "backup", "alice,bob", true⟩
          (sampleWorld [])).val = some err)
      ∧ (RunE (simSys [("doc", sampleConfig)]) ⟨"cfg.yaml", "backup", "alice,bob", true⟩
          (sampleWorld [])).trace.filterMap execName = [] :=
  ⟨⟨"bob", by decide, by decide⟩,
    runE_validation_gate (simSys [("doc", sampleConfig)])
      ⟨"cfg.yaml", "backup", "alice,bob", true⟩ (sampleWorld []) ["alice", "bob"] "doc"
      sampleConfig (by decide) (by decide) (by decide) ⟨"bob", by decide, by decide⟩⟩

/-! ## Reconciliation against the version-control client -/

theorem filter_replaceAll_same (key value : String) (l : List (String × String)) :
    (replaceAll key value l).filter (fun kv => kv.1 = key) = [(key, value)] := by
  induction l with
  | nil => simp [replaceAll]
  | cons kv rest ih =>
    unfold replaceAll
    by_cases h : kv.1 = key
    · simp only [h, if_true, List.filter_cons, decide_True, List.filter_filter]
      simp
    · simp only [h, if_false, List.filter_cons, decide_False]
      simpa using ih

theorem filter_replaceAll_other (key value other : String) (l : List (String × String))
    (hne : other ≠ key) :
    (replaceAll key value l).filter (fun kv => kv.1 = other)
      = l.filter (fun kv => kv.1 = other) := by
  induction l with
  | nil => simp [replaceAll, hne.symm]
  | cons kv rest ih =>
    unfold replaceAll
    by_cases h : kv.1 = key
    · have h1 : ¬ kv.1 = other := by rw [h]; exact fun h2 => hne h2.symm
      have h2 : ¬ key = other := fun h2 => hne h2.symm
      simp only [h, if_true, List.filter_cons, h1, h2, decide_False, List.filter_filter]
      simp only [Bool.false_eq_true, if_false]
      apply List.filter_congr
      intro x _
      by_cases hx : x.1 = other
      · simp [hx, hne]
      · simp [hx]
    · simp only [h, if_false, List.filter_cons]
      rw [ih]

theorem reconcile_gitSys (g : GitRepo) (url : String) :
    (reconcile gitSys url g).val = none
      ∧ (reconcile gitSys url g).state.settings = settingsAfter g.settings
      ∧ (reconcile gitSys url g).state.remotes = remotesAfter url g.remotes := by
  by_cases h : (g.remotes.lookup "gitlab").isSome = true
  · simp [reconcile, addOrSetRemote, runConfigs, configs, gitSys, gitRun, h, settingsAfter,
      remotesAfter]
  · simp [reconcile, addOrSetRemote, runConfigs, configs, gitSys, gitRun, h, settingsAfter,
      remotesAfter]

theorem values_settingsAfter_fetch (l : List (String × String)) :
    (⟨[], settingsAfter l⟩ : GitRepo).values "remote.origin.fetch"
      = ["+refs/heads/*:refs/heads/*", "+refs/tags/*:refs/tags/*",
          "+refs/change/*:refs/change/*"] := by
  simp only [GitRepo.values, settingsAfter, List.filter_append,
    filter_replaceAll_other "remote.gitlab.push" _ "remote.origin.fetch" _ (by decide),
    filter_replaceAll_same]
  simp

theorem values_settingsAfter_push (l : List (String × String)) :
    (⟨[], settingsAfter l⟩ : GitRepo).values "remote.gitlab.push"
      = ["+refs/heads/*:refs/heads/*", "+refs/tags/*:refs/tags/*",
          "+refs/change/*:refs/change/*"] := by
  simp only [GitRepo.values, settingsAfter, List.filter_append, filter_replaceAll_same]
  simp

theorem values_settingsAfter_other (l : List (String × String)) (key : String)
    (h1 : key ≠ "remote.origin.fetch") (h2 : key ≠ "remote.gitlab.push") :
    (⟨[], settingsAfter l⟩ : GitRepo).values key = (⟨[], l⟩ : GitRepo).values key := by
  simp only [GitRepo.values, settingsAfter, List.filter_append,
    filter_replaceAll_other "remote.gitlab.push" _ key _ h2,
    filter_replaceAll_other "remote.origin.fetch" _ key _ h1]
  simp [Ne.symm h1, Ne.symm h2]

theorem lookup_none_ne (k : String) (r : List (String × String)) (h : r.lookup k = none) :
    ∀ x ∈ r, x.1 ≠ k := by
  induction r with
  | nil => simp
  | cons a rest ih =>
    obtain ⟨ak, av⟩ := a
    simp only [List.lookup_cons] at h
    by_cases hk : k = ak
    · subst hk; simp at h
    · have hb : (k == ak) = false := by simpa using hk
      rw [hb] at h
      intro x hx
      rcases List.mem_cons.mp hx with rfl | hx
      · exact fun h3 => hk h3.symm
      · exact ih h x hx

theorem lookup_remotesAfter (url : String) (r : List (String × String)) :
    (remotesAfter url r).lookup "gitlab" = some url := by
  unfold remotesAfter
  by_cases h : (r.lookup "gitlab").isSome = true
  · rw [if_pos h]
    induction r with
    | nil => simp at h
    | cons a rest ih =>
      obtain ⟨ak, av⟩ := a
      by_cases hk : ak = "gitlab"
      · subst hk; simp [List.lookup_cons]
      · have hb : ("gitlab" == ak) = false := by simpa using fun h3 => hk h3.symm
        simp only [List.lookup_cons, hb] at h
        simp only [List.map_cons, hk, if_false, List.lookup_cons, hb]
        exact ih h
  · rw [if_neg h]
    have hn : r.lookup "gitlab" = none := Option.not_isSome_iff_eq_none.mp h
    have hne := lookup_none_ne "gitlab" r hn
    clear h hn
    induction r with
    | nil => simp [List.lookup_cons]
    | cons a rest ih =>
      obtain ⟨ak, av⟩ := a
      have hk : ak ≠ "gitlab" := hne (ak, av) (List.mem_cons_self _ _)
      have hb : ("gitlab" == ak) = false := by simpa using fun h3 => hk h3.symm
      simp only [List.cons_append, List.lookup_cons, hb]
      exact ih (fun x hx => hne x (List.mem_cons_of_mem _ hx))

theorem remotesAfter_idem (url : String) (r : List (String × String)) :
    remotesAfter url (remotesAfter url r) = remotesAfter url r := by
  have hl := lookup_remotesAfter url r
  have hstep : ∀ x : List (String × String), x.lookup "gitlab" = some url →
      remotesAfter url x = x.map (fun y => if y.1 = "gitlab" then ("gitlab", url) else y) := by
    intro x hx
    simp [remotesAfter, hx]
  rw [hstep _ hl]
  unfold remotesAfter
  by_cases h : (r.lookup "gitlab").isSome = true
  · rw [if_pos h, List.map_map]
    apply List.map_congr_left
    intro x _
    by_cases hx : x.1 = "gitlab" <;> simp [hx]
  · rw [if_neg h]
    have hn : r.lookup "gitlab" = none := Option.not_isSome_iff_eq_none.mp h
    have hne := lookup_none_ne "gitlab" r hn
    rw [List.map_append]
    congr 1
    · conv_rhs => rw [← List.map_id r]
      apply List.map_congr_left
      intro x hx
      simp [hne x hx]

theorem values_of_settings (g : GitRepo) (l : List (String × String)) (key : String)
    (h : g.settings = l) : g.values key = (⟨[], l⟩ : GitRepo).values key := by
  unfold GitRepo.values
  rw [h]

/-- C6: against the version-control client as the specification describes it, and from any
prior configuration of the repository, the reconciliation steps of `mirrorToGitlab` (remote
add with fallback to set-url, then the six refspec settings) succeed, and succeed again when
run a second time; the second run leaves the remotes as the first left them, with the
destination remote at the URL, and leaves every setting with the values the first left: the
values of `remote.origin.fetch` and of `remote.gitlab.push` are the heads, tags and change
patterns, once each, after one run and after two. -/
theorem reconcile_twice_same (g : GitRepo) (url : String) :
    let once := reconcile gitSys url g
    let twice := reconcile gitSys url once.state
    once.val = none ∧ twice.val = none
      ∧ once.state.remotes.lookup "gitlab" = some url
      ∧ twice.state.remotes = once.state.remotes
      ∧ (∀ key, twice.state.values key = once.state.values key)
      ∧ once.state.values "remote.origin.fetch"
        = ["+refs/heads/*:refs/heads/*", "+refs/tags/*:refs/tags/*",
            "+refs/change/*:refs/change/*"]
      ∧ once.state.values "remote.gitlab.push"
        = ["+refs/heads/*:refs/heads/*", "+refs/tags/*:refs/tags/*",
            "+refs/change/*:refs/change/*"]
      ∧ twice.state.values "remote.origin.fetch"
        = ["+refs/heads/*:refs/heads/*", "+refs/tags/*:refs/tags/*",
            "+refs/change/*:refs/change/*"]
      ∧ twice.state.values "remote.gitlab.push"
        = ["+refs/heads/*:refs/heads/*", "+refs/tags/*:refs/tags/*",
            "+refs/change/*:refs/change/*"] := by
  intro once twice
  obtain ⟨v1, s1, r1⟩ := reconcile_gitSys g url
  obtain ⟨v2, s2, r2⟩ := reconcile_gitSys once.state url
  have hf1 := (values_of_settings once.state _ "remote.origin.fetch" s1).trans
    (values_settingsAfter_fetch g.settings)
  have hp1 := (values_of_settings once.state _ "remote.gitlab.push" s1).trans
    (values_settingsAfter_push g.settings)
  have hf2 := (values_of_settings twice.state _ "remote.origin.fetch" s2).trans
    (values_settingsAfter_fetch once.state.settings)
  have hp2 := (values_of_settings twice.state _ "remote.gitlab.push" s2).trans
    (values_settingsAfter_push once.state.settings)
  refine ⟨v1, v2, ?_, ?_, ?_, hf1, hp1, hf2, hp2⟩
  · show (reconcile gitSys url g).state.remotes.lookup "gitlab" = some url
    rw [r1]
    exact lookup_remotesAfter url g.remotes
  · show (reconcile gitSys url once.state).state.remotes = once.state.remotes
    rw [r2]
    show remotesAfter url (reconcile gitSys url g).state.remotes
      = (reconcile gitSys url g).state.remotes
    rw [r1]
    exact remotesAfter_idem url g.remotes
  · intro key
    by_cases h1 : key = "remote.origin.fetch"
    · rw [h1, hf1, hf2]
    by_cases h2 : key = "remote.gitlab.push"
    · rw [h2, hp1, hp2]
    rw [values_of_settings twice.state _ key s2,
      values_settingsAfter_other once.state.settings key h1 h2]
    rfl

/-! ## The request body of the notification -/

/-- C9 (evaluation at the failing input): the body built for a summary without failed
repositories decodes as the JSON object with the summary as `content` and `GitHub Mirror Bot`
as `username`; the summary of a batch with a failed repository holds a line feed, which the
body carries unescaped, so the body is not a JSON text; `processRepositories` sends exactly
that body when the push of `api` fails; a quotation mark in the entity name breaks the body in
the same way. -/
theorem discordPayload_not_json_on_failures :
    jsonDecodeStrings (discordPayload (summaryText "alice" ⟨2, 0, []⟩))
        = some [("content", "[alice] 2 repositories mirrored, 0 error(s) occurred."),
            ("username", "GitHub Mirror Bot")]
      ∧ summaryText "alice" ⟨2, 1, ["api"]⟩
        = "[alice] 2 repositories mirrored, 1 error(s) occurred.\nFailed repos: [api]"
      ∧ jsonDecodeStrings (discordPayload (summaryText "alice" ⟨2, 1, ["api"]⟩)) = none
      ∧ Event.exec "curl" ["-H", "Content-Type: application/json", "-d",
            discordPayload (summaryText "alice" ⟨2, 1, ["api"]⟩), "-X", "POST", "hook"] none
          ∈ (processRepositories (simSys []) "alice" sampleEntity "backup" "hook"
              (sampleWorld [none, none, none, none, none, none, none, some "exit status 1"])
            ).trace
      ∧ jsonDecodeStrings (discordPayload (summaryText "a\"b" ⟨0, 0, []⟩)) = none := by
  refine ⟨?_, ?_, ?_, ?_, ?_⟩ <;> decide

/-! ## The working directory -/

/-- C10 (evaluation at the failing input): the process starts in `/work` with the relative
backup root `backup`; after `processRepositories` has mirrored the one repository of `alice`
without any failure, the working directory is `/work/backup/alice_backup`, not `/work`, and
the backup root now denotes `/work/backup/alice_backup/backup`; in the run over `alice` and
`carol` the batch of `carol` fails with a directory not found although `/work/backup/carol_backup`
exists and only `api` is mirrored, while with the absolute root `/work/backup` both `api` and
`site` are. -/
theorem processRepositories_leaves_cwd_changed :
    (sampleWorldTwo []).cwd = ["work"]
      ∧ (processRepositories (simSys []) "alice" sampleEntity "backup" ""
          (sampleWorldTwo [])).val = none
      ∧ (processRepositories (simSys []) "alice" sampleEntity "backup" ""
          (sampleWorldTwo [])).trace.filterMap mirrorFailed = []
      ∧ (processRepositories (simSys []) "alice" sampleEntity "backup" ""
          (sampleWorldTwo [])).state.cwd = ["work", "backup", "alice_backup"]
      ∧ (simSys []).abs "backup" (sampleWorldTwo []) = .ok "/work/backup"
      ∧ (simSys []).abs "backup" (processRepositories (simSys []) "alice" sampleEntity "backup"
          "" (sampleWorldTwo [])).state = .ok "/work/backup/alice_backup/backup"
      ∧ Event.log "Error processing %s repositories: %v"
            ["carol", "directory backup/carol_backup not found"]
          ∈ (RunE (simSys [("doc", sampleConfigTwo)])
              ⟨"cfg.yaml", "backup", "alice,carol", true⟩ (sampleWorldTwo [])).trace
      ∧ (RunE (simSys [("doc", sampleConfigTwo)])
            ⟨"cfg.yaml", "backup", "alice,carol", true⟩ (sampleWorldTwo [])
          ).trace.filterMap mirrorStarted = ["api"]
      ∧ (RunE (simSys [("doc", sampleConfigTwo)])
            ⟨"cfg.yaml", "/work/backup", "alice,carol", true⟩ (sampleWorldTwo [])
          ).trace.filterMap mirrorStarted = ["api", "site"] := by
  refine ⟨?_, ?_, ?_, ?_, ?_, ?_, ?_, ?_, ?_⟩ <;> decide

end Ghmir
